import Mathlib

/-!
CharacterTypeSetData: a sparse, lazily growing table of character traits

Shallow embedding of `CharacterTypeSetData.h`.

Modelling conventions.

* A `const CharacterType *` is an `Option Nat`: `none` is `nullptr`, `some a` is the
  address of a tag object. The table never dereferences it.
* A `wchar_t` that is used as a code point is a natural number; the cast
  `static_cast<size_t>(iCharacter)` is then the identity, and `i + 1` in
  `createDefaultCharacterTypeInPosition` cannot wrap because `i ≤ iCharacter`.
  The methods with the suffix `_wchar` take the argument as a signed 32-bit `wchar_t`
  and compute in 64-bit `size_t`; they agree with the former for a non-negative
  argument and are used where a negative argument matters.
* `m_data` is `Option (List (List CharacterTypeTraits))`: `none` is the null pointer,
  `some rows` an allocated array of row pointers. The field `i_size` is kept next to
  it, exactly as in the class, and is not derived from the list.
* Every operation returns an `Option`: `none` stands for undefined behaviour of the
  C++ code (division by zero in `get_i` and `get_j`, an access `m_data[i][j]` through
  a null pointer or out of bounds). Allocation never fails.
-/

set_option autoImplicit false

/-- A `const CharacterType *`; `none` is `nullptr`. -/
abbrev CharacterTypePtr := Option Nat

/-- The nested struct `CharacterTypeTraits`. -/
structure CharacterTypeTraits where
  m_characterTypePtr : CharacterTypePtr
  m_compareValue : Nat
  m_caseInsensetiveCompareValue : Nat
deriving DecidableEq, Repr

/-- The default constructor `CharacterTypeTraits( )`: null tag, both compare values 0. -/
def CharacterTypeTraits.ctor : CharacterTypeTraits :=
  { m_characterTypePtr := none, m_compareValue := 0, m_caseInsensetiveCompareValue := 0 }

/-- The nested struct `Coordinates`. -/
structure Coordinates where
  i : Nat
  j : Nat
deriving DecidableEq, Repr

/-- The data members of the class `CharacterTypeSetData`. -/
structure CharacterTypeSetData where
  m_defaultCharacterType : CharacterTypePtr
  m_data : Option (List (List CharacterTypeTraits))
  i_size : Nat
  j_size : Nat
deriving DecidableEq, Repr

namespace CharacterTypeSetData

/-- The method `get_i`: `index / j_size`; division by zero is undefined. -/
def get_i (t : CharacterTypeSetData) (index : Nat) : Option Nat :=
  if t.j_size = 0 then none else some (index / t.j_size)

/-- The method `get_j`: `index % j_size`; division by zero is undefined. -/
def get_j (t : CharacterTypeSetData) (index : Nat) : Option Nat :=
  if t.j_size = 0 then none else some (index % t.j_size)

/-- A row made by `new CharacterTypeTraits[j_size]`: `j_size` default-constructed cells. -/
def newRow (j_size : Nat) : List CharacterTypeTraits :=
  List.replicate j_size CharacterTypeTraits.ctor

/-- The loop of `_reallocate`, run for `i = 0, ..., n - 1`: the entries of `m_data_new`
written so far. Entry `i` is the old row pointer `m_data[i]` when `m_data` is not null
and `i < i_size`, and a new row otherwise. -/
def reallocateLoop (t : CharacterTypeSetData) : Nat → Option (List (List CharacterTypeTraits))
  | 0 => some []
  | n + 1 =>
    match reallocateLoop t n with
    | none => none
    | some done =>
      match t.m_data with
      | some rows =>
        if n < t.i_size then
          match rows[n]? with
          | some row => some (done ++ [row])
          | none => none
        else some (done ++ [newRow t.j_size])
      | none => some (done ++ [newRow t.j_size])

/-- The method `_reallocate`. The array `new CharacterTypeTraits* [new_size_i]` is a
non-null pointer also when `new_size_i` is 0. -/
def _reallocate (t : CharacterTypeSetData) (new_size_i : Nat) : Option CharacterTypeSetData :=
  match reallocateLoop t new_size_i with
  | none => none
  | some m_data_new => some { t with i_size := new_size_i, m_data := some m_data_new }

/-- The read access `m_data[i][j]`. -/
def readCell (t : CharacterTypeSetData) (i j : Nat) : Option CharacterTypeTraits :=
  match t.m_data with
  | none => none
  | some rows =>
    match rows[i]? with
    | none => none
    | some row => row[j]?

/-- A write access to `m_data[i][j]`: the cell is replaced by `f` of its old value. -/
def writeCell (t : CharacterTypeSetData) (i j : Nat)
    (f : CharacterTypeTraits → CharacterTypeTraits) : Option CharacterTypeSetData :=
  match t.m_data with
  | none => none
  | some rows =>
    match rows[i]? with
    | none => none
    | some row =>
      match row[j]? with
      | none => none
      | some x => some { t with m_data := some (rows.set i (row.set j (f x))) }

/-- The method `setDafaultCharacterTypeInPosition`: three field assignments. -/
def setDafaultCharacterTypeInPosition (t : CharacterTypeSetData) (i j iCharacter : Nat) :
    Option CharacterTypeSetData := do
  let t1 ← writeCell t i j (fun x => { x with m_characterTypePtr := t.m_defaultCharacterType })
  let t2 ← writeCell t1 i j (fun x => { x with m_compareValue := iCharacter })
  writeCell t2 i j (fun x => { x with m_caseInsensetiveCompareValue := iCharacter })

/-- The method `createDefaultCharacterTypeInPosition`. -/
def createDefaultCharacterTypeInPosition (t : CharacterTypeSetData) (i j iCharacter : Nat) :
    Option CharacterTypeSetData := do
  let t0 ← if i ≥ t.i_size then _reallocate t (i + 1) else some t
  let t1 ← writeCell t0 i j (fun x => { x with m_characterTypePtr := t0.m_defaultCharacterType })
  let t2 ← writeCell t1 i j (fun x => { x with m_compareValue := iCharacter })
  writeCell t2 i j (fun x => { x with m_caseInsensetiveCompareValue := iCharacter })

/-- The method `touchElement`: the table after the touch and the coordinates. -/
def touchElement (t : CharacterTypeSetData) (iCharacter : Nat) :
    Option (CharacterTypeSetData × Coordinates) := do
  let i ← get_i t iCharacter
  let j ← get_j t iCharacter
  let t1 ← if i ≥ t.i_size then createDefaultCharacterTypeInPosition t i j iCharacter else some t
  let x ← readCell t1 i j
  let t2 ← if x.m_characterTypePtr = none then
      setDafaultCharacterTypeInPosition t1 i j iCharacter else some t1
  some (t2, { i := i, j := j })

/-- The method `clear`: reads `m_data[i]` for every `i < i_size` and frees the rows and
the array. Freeing has no effect on the values of the embedding; what is left is whether
the reads are defined. -/
def clear (t : CharacterTypeSetData) : Option Unit :=
  match t.m_data with
  | none => if t.i_size = 0 then some () else none
  | some rows => if t.i_size ≤ rows.length then some () else none

/-- The constructor `CharacterTypeSetData(defaultCharacterType, initialContainerSize)`:
the member initialisers, then `_reallocate(i_size)` with `i_size` equal to 0. -/
def construct (defaultCharacterType : CharacterTypePtr) (initialContainerSize : Nat) :
    Option CharacterTypeSetData :=
  _reallocate
    { m_defaultCharacterType := defaultCharacterType, m_data := none, i_size := 0
      j_size := initialContainerSize } 0

/-- The copy loop of `operator=`, run for `i = 0, ..., n - 1`: row `i` is a new row of
`j_size` cells overwritten by `memcpy` with the first `j_size` cells of `rhs.m_data[i]`. -/
def copyLoop (rhsRows : List (List CharacterTypeTraits)) (j_size : Nat) :
    Nat → Option (List (List CharacterTypeTraits))
  | 0 => some []
  | n + 1 =>
    match copyLoop rhsRows j_size n with
    | none => none
    | some done =>
      match rhsRows[n]? with
      | none => none
      | some row => if j_size ≤ row.length then some (done ++ [row.take j_size]) else none

/-- The method `operator=`. `sameObject` is the outcome of the test `this == &rhs`. -/
def operatorAssign (sameObject : Bool) (this rhs : CharacterTypeSetData) :
    Option CharacterTypeSetData :=
  if sameObject then some this
  else
    match this.m_data with
    | none => some this
    | some _ =>
      match clear this with
      | none => none
      | some _ =>
        match rhs.m_data with
        | none =>
          some { m_defaultCharacterType := rhs.m_defaultCharacterType, m_data := none
                 i_size := rhs.i_size, j_size := rhs.j_size }
        | some rhsRows =>
          match copyLoop rhsRows rhs.j_size rhs.i_size with
          | none => none
          | some rows =>
            some { m_defaultCharacterType := rhs.m_defaultCharacterType, m_data := some rows
                   i_size := rhs.i_size, j_size := rhs.j_size }

/-- The method `getCharacterType`: the table after the call and the returned pointer. -/
def getCharacterType (t : CharacterTypeSetData) (iCharacter : Nat) :
    Option (CharacterTypeSetData × CharacterTypePtr) := do
  let (t1, coord) ← touchElement t iCharacter
  let x ← readCell t1 coord.i coord.j
  some (t1, x.m_characterTypePtr)

/-- The method `getCompareCharacter`. -/
def getCompareCharacter (t : CharacterTypeSetData) (iCharacter : Nat) :
    Option (CharacterTypeSetData × Nat) := do
  let (t1, coord) ← touchElement t iCharacter
  let x ← readCell t1 coord.i coord.j
  some (t1, x.m_compareValue)

/-- The method `getCompareCharacterInsensetive`. -/
def getCompareCharacterInsensetive (t : CharacterTypeSetData) (iCharacter : Nat) :
    Option (CharacterTypeSetData × Nat) := do
  let (t1, coord) ← touchElement t iCharacter
  let x ← readCell t1 coord.i coord.j
  some (t1, x.m_caseInsensetiveCompareValue)

/-- The method `setCharacterType`. -/
def setCharacterType (t : CharacterTypeSetData) (index : Nat) (ptr : CharacterTypePtr) :
    Option CharacterTypeSetData := do
  let (t1, coord) ← touchElement t index
  writeCell t1 coord.i coord.j (fun x => { x with m_characterTypePtr := ptr })

/-- The method `setCompareCharacter`. -/
def setCompareCharacter (t : CharacterTypeSetData) (index iCharacter : Nat) :
    Option CharacterTypeSetData := do
  let (t1, coord) ← touchElement t index
  writeCell t1 coord.i coord.j (fun x => { x with m_compareValue := iCharacter })

/-- The method `setCompareCharacterInsensetive`. -/
def setCompareCharacterInsensetive (t : CharacterTypeSetData) (index iCharacter : Nat) :
    Option CharacterTypeSetData := do
  let (t1, coord) ← touchElement t index
  writeCell t1 coord.i coord.j (fun x => { x with m_caseInsensetiveCompareValue := iCharacter })

end CharacterTypeSetData

namespace CharacterTypeSetData

/-- One get or set call of the public interface. -/
inductive Op where
  | getCharacterType (iCharacter : Nat)
  | getCompareCharacter (iCharacter : Nat)
  | getCompareCharacterInsensetive (iCharacter : Nat)
  | setCharacterType (index : Nat) (ptr : CharacterTypePtr)
  | setCompareCharacter (index iCharacter : Nat)
  | setCompareCharacterInsensetive (index iCharacter : Nat)
deriving DecidableEq, Repr

/-- The code point a call is made at. -/
def Op.index : Op → Nat
  | .getCharacterType c => c
  | .getCompareCharacter c => c
  | .getCompareCharacterInsensetive c => c
  | .setCharacterType c _ => c
  | .setCompareCharacter c _ => c
  | .setCompareCharacterInsensetive c _ => c

/-- Whether the call is one of the three set methods. -/
def Op.isSet : Op → Bool
  | .setCharacterType _ _ => true
  | .setCompareCharacter _ _ => true
  | .setCompareCharacterInsensetive _ _ => true
  | _ => false

/-- The table after one call (the value a get returns is dropped). -/
def Op.run (t : CharacterTypeSetData) : Op → Option CharacterTypeSetData
  | .getCharacterType c => (t.getCharacterType c).map Prod.fst
  | .getCompareCharacter c => (t.getCompareCharacter c).map Prod.fst
  | .getCompareCharacterInsensetive c => (t.getCompareCharacterInsensetive c).map Prod.fst
  | .setCharacterType c ptr => t.setCharacterType c ptr
  | .setCompareCharacter c v => t.setCompareCharacter c v
  | .setCompareCharacterInsensetive c v => t.setCompareCharacterInsensetive c v

/-- The table after a sequence of calls, made from left to right. -/
def runOps (t : CharacterTypeSetData) : List Op → Option CharacterTypeSetData
  | [] => some t
  | op :: ops =>
    match op.run t with
    | none => none
    | some t1 => runOps t1 ops

/-- The tables a program can hold: constructed (with any arguments), changed by a get
or set call, or assigned from another such table. -/
inductive Reachable : CharacterTypeSetData → Prop
  | construct (D : CharacterTypePtr) (w : Nat) (t : CharacterTypeSetData) :
      CharacterTypeSetData.construct D w = some t → Reachable t
  | call (op : Op) (t t1 : CharacterTypeSetData) :
      Reachable t → op.run t = some t1 → Reachable t1
  | assign (sameObject : Bool) (this rhs t1 : CharacterTypeSetData) :
      Reachable this → Reachable rhs → operatorAssign sameObject this rhs = some t1 →
      Reachable t1

/-- The layout invariant: `m_data` is an array of `i_size` rows of `j_size` cells. -/
def WF (t : CharacterTypeSetData) : Prop :=
  ∃ rows, t.m_data = some rows ∧ rows.length = t.i_size ∧
    ∀ (i : Nat) (row : List CharacterTypeTraits), rows[i]? = some row → row.length = t.j_size

/-- What a touch makes of a cell value found at code point `c`: a cell with a null tag
is overwritten with the default tag and `c`, any other cell is kept. -/
def normalize (D : CharacterTypePtr) (c : Nat) (x : CharacterTypeTraits) :
    CharacterTypeTraits :=
  if x.m_characterTypePtr = none then
    { m_characterTypePtr := D, m_compareValue := c, m_caseInsensetiveCompareValue := c }
  else x

/-- The traits the table holds for code point `c` as the next touch will leave them:
the stored cell, normalised, or the default cell when the row is not allocated. -/
def effective (t : CharacterTypeSetData) (c : Nat) : CharacterTypeTraits :=
  match readCell t (c / t.j_size) (c % t.j_size) with
  | some x => normalize t.m_defaultCharacterType c x
  | none =>
    { m_characterTypePtr := t.m_defaultCharacterType, m_compareValue := c
      m_caseInsensetiveCompareValue := c }

/-- The effect of a touch or a set call at code point `c` on a table `t`: the table `t1`
is well formed, has the same default tag and width, has grown to hold the row of `c`,
holds `x` in the cell of `c`, keeps every other old cell and holds a default-constructed
cell everywhere else in the new rows. -/
structure CellSpec (t t1 : CharacterTypeSetData) (c : Nat) (x : CharacterTypeTraits) :
    Prop where
  wf : WF t1
  dflt : t1.m_defaultCharacterType = t.m_defaultCharacterType
  width : t1.j_size = t.j_size
  rowCount : t1.i_size = max t.i_size (c / t.j_size + 1)
  self : readCell t1 (c / t.j_size) (c % t.j_size) = some x
  old : ∀ i j, i < t.i_size → (i ≠ c / t.j_size ∨ j ≠ c % t.j_size) →
    readCell t1 i j = readCell t i j
  fresh : ∀ i j, t.i_size ≤ i → i < t1.i_size → j < t.j_size →
    (i ≠ c / t.j_size ∨ j ≠ c % t.j_size) →
    readCell t1 i j = some CharacterTypeTraits.ctor

/-- The three values a caller reads at code point `c`: what `getCharacterType`,
`getCompareCharacter` and `getCompareCharacterInsensetive` return when called on `t`. -/
def observe (t : CharacterTypeSetData) (c : Nat) : Option (CharacterTypePtr × Nat × Nat) :=
  match getCharacterType t c, getCompareCharacter t c, getCompareCharacterInsensetive t c with
  | some a, some b, some d => some (a.2, b.2, d.2)
  | _, _, _ => none

/-- What a call returns to its caller: a tag pointer, a compare value, or nothing (the
set methods are `void`). -/
inductive Ret where
  | tag (ptr : CharacterTypePtr)
  | value (v : Nat)
  | void
deriving DecidableEq, Repr

/-- One call together with the value it returns. -/
def Op.call (t : CharacterTypeSetData) : Op → Option (CharacterTypeSetData × Ret)
  | .getCharacterType c => (t.getCharacterType c).map fun r => (r.1, Ret.tag r.2)
  | .getCompareCharacter c => (t.getCompareCharacter c).map fun r => (r.1, Ret.value r.2)
  | .getCompareCharacterInsensetive c =>
    (t.getCompareCharacterInsensetive c).map fun r => (r.1, Ret.value r.2)
  | .setCharacterType c ptr => (t.setCharacterType c ptr).map fun t1 => (t1, Ret.void)
  | .setCompareCharacter c v => (t.setCompareCharacter c v).map fun t1 => (t1, Ret.void)
  | .setCompareCharacterInsensetive c v =>
    (t.setCompareCharacterInsensetive c v).map fun t1 => (t1, Ret.void)

/-- Whether the call is `setCharacterType` with a null tag. -/
def Op.writesNullTag : Op → Bool
  | .setCharacterType _ none => true
  | _ => false

/-- The values returned by a sequence of calls, made from left to right. -/
def callAll (t : CharacterTypeSetData) : List Op → Option (List Ret)
  | [] => some []
  | op :: ops =>
    match op.call t with
    | none => none
    | some r =>
      match callAll r.1 ops with
      | none => none
      | some rs => some (r.2 :: rs)

/-- The specification side of the refinement, following the words of the claim: three
independent total maps from code points to the tag, the compare value and the
case-insensitive compare value. -/
structure TotalMaps where
  tag : Nat → CharacterTypePtr
  compare : Nat → Nat
  compareInsensitive : Nat → Nat

/-- The maps of a new table: the default tag everywhere, and every code point as its own
compare values. -/
def TotalMaps.init (D : CharacterTypePtr) : TotalMaps :=
  { tag := fun _ => D, compare := fun c => c, compareInsensitive := fun c => c }

/-- One call on the maps: a get reads its map at the code point, a set replaces the
value of its map at the code point and leaves the other two maps alone. -/
def TotalMaps.call (m : TotalMaps) : Op → TotalMaps × Ret
  | .getCharacterType c => (m, Ret.tag (m.tag c))
  | .getCompareCharacter c => (m, Ret.value (m.compare c))
  | .getCompareCharacterInsensetive c => (m, Ret.value (m.compareInsensitive c))
  | .setCharacterType c ptr =>
    ({ m with tag := fun k => if k = c then ptr else m.tag k }, Ret.void)
  | .setCompareCharacter c v =>
    ({ m with compare := fun k => if k = c then v else m.compare k }, Ret.void)
  | .setCompareCharacterInsensetive c v =>
    ({ m with compareInsensitive := fun k => if k = c then v else m.compareInsensitive k },
      Ret.void)

/-- The values returned by a sequence of calls on the maps. -/
def TotalMaps.callAll (m : TotalMaps) : List Op → List Ret
  | [] => []
  | op :: ops => (m.call op).2 :: TotalMaps.callAll (m.call op).1 ops

/-- The table `t` represents the maps `m`: it is well formed, of positive width and
non-null default tag, and its effective traits at every code point are the values of the
three maps. -/
def Represents (t : CharacterTypeSetData) (m : TotalMaps) : Prop :=
  WF t ∧ 0 < t.j_size ∧ t.m_defaultCharacterType ≠ none ∧
    ∀ c, effective t c =
      { m_characterTypePtr := m.tag c, m_compareValue := m.compare c
        m_caseInsensetiveCompareValue := m.compareInsensitive c }

/-! ### The methods on machine integers

The methods above take the code point as a natural number. The public methods of the
class take a `wchar_t`, which is a signed 32-bit integer on the platform considered
here, and compute with `size_t`, an unsigned 64-bit integer. The definitions below are
the same methods with the argument as an integer, the cast `static_cast<size_t>` taken
modulo `2 ^ 64`, and `i + 1` wrapping modulo `2 ^ 64`. A stored `wchar_t` is kept as its
32-bit pattern. -/

/-- The cast `static_cast<size_t>(iCharacter)` of a `wchar_t`: the value modulo
`2 ^ 64`. -/
def wcharToSize (iCharacter : Int) : Nat :=
  (iCharacter % ((2 ^ 64 : Nat) : Int)).toNat

/-- The 32-bit pattern of a `wchar_t`, under which a compare value is stored. -/
def wcharBits (iCharacter : Int) : Nat :=
  (iCharacter % ((2 ^ 32 : Nat) : Int)).toNat

/-- The method `createDefaultCharacterTypeInPosition` with `i + 1` computed in
`size_t`. -/
def createDefaultCharacterTypeInPosition_wchar (t : CharacterTypeSetData) (i j : Nat)
    (iCharacter : Int) : Option CharacterTypeSetData := do
  let t0 ← if i ≥ t.i_size then _reallocate t ((i + 1) % 2 ^ 64) else some t
  let t1 ← writeCell t0 i j (fun x => { x with m_characterTypePtr := t0.m_defaultCharacterType })
  let t2 ← writeCell t1 i j (fun x => { x with m_compareValue := wcharBits iCharacter })
  writeCell t2 i j (fun x => { x with m_caseInsensetiveCompareValue := wcharBits iCharacter })

/-- The method `touchElement` with its `wchar_t` argument. -/
def touchElement_wchar (t : CharacterTypeSetData) (iCharacter : Int) :
    Option (CharacterTypeSetData × Coordinates) := do
  let i ← get_i t (wcharToSize iCharacter)
  let j ← get_j t (wcharToSize iCharacter)
  let t1 ← if i ≥ t.i_size then createDefaultCharacterTypeInPosition_wchar t i j iCharacter
    else some t
  let x ← readCell t1 i j
  let t2 ← if x.m_characterTypePtr = none then
      setDafaultCharacterTypeInPosition t1 i j (wcharBits iCharacter) else some t1
  some (t2, { i := i, j := j })

/-- The method `getCharacterType` with its `wchar_t` argument. -/
def getCharacterType_wchar (t : CharacterTypeSetData) (iCharacter : Int) :
    Option (CharacterTypeSetData × CharacterTypePtr) := do
  let (t1, coord) ← touchElement_wchar t iCharacter
  let x ← readCell t1 coord.i coord.j
  some (t1, x.m_characterTypePtr)

/-- The method `getCompareCharacter` with its `wchar_t` argument. -/
def getCompareCharacter_wchar (t : CharacterTypeSetData) (iCharacter : Int) :
    Option (CharacterTypeSetData × Nat) := do
  let (t1, coord) ← touchElement_wchar t iCharacter
  let x ← readCell t1 coord.i coord.j
  some (t1, x.m_compareValue)

/-- The method `getCompareCharacterInsensetive` with its `wchar_t` argument. -/
def getCompareCharacterInsensetive_wchar (t : CharacterTypeSetData) (iCharacter : Int) :
    Option (CharacterTypeSetData × Nat) := do
  let (t1, coord) ← touchElement_wchar t iCharacter
  let x ← readCell t1 coord.i coord.j
  some (t1, x.m_caseInsensetiveCompareValue)

/-- The method `setCharacterType` with its `wchar_t` argument. -/
def setCharacterType_wchar (t : CharacterTypeSetData) (index : Int)
    (ptr : CharacterTypePtr) : Option CharacterTypeSetData := do
  let (t1, coord) ← touchElement_wchar t index
  writeCell t1 coord.i coord.j (fun x => { x with m_characterTypePtr := ptr })

/-- The method `setCompareCharacter` with its `wchar_t` arguments. -/
def setCompareCharacter_wchar (t : CharacterTypeSetData) (index iCharacter : Int) :
    Option CharacterTypeSetData := do
  let (t1, coord) ← touchElement_wchar t index
  writeCell t1 coord.i coord.j (fun x => { x with m_compareValue := wcharBits iCharacter })

/-- The method `setCompareCharacterInsensetive` with its `wchar_t` arguments. -/
def setCompareCharacterInsensetive_wchar (t : CharacterTypeSetData)
    (index iCharacter : Int) : Option CharacterTypeSetData := do
  let (t1, coord) ← touchElement_wchar t index
  writeCell t1 coord.i coord.j
    (fun x => { x with m_caseInsensetiveCompareValue := wcharBits iCharacter })

end CharacterTypeSetData

/-! ## The exception classes of `ConvenientExceptionClass.cpp` -/

namespace FileParser

/-- The class `Exception`: its one data member is the text `m_text`, a `std::wstring`,
here the list of its wide characters. -/
structure Exception where
  m_text : List Char
deriving DecidableEq, Repr

/-- The class `ParserException`, derived from `Exception` without new members. -/
structure ParserException extends Exception
deriving DecidableEq, Repr

/-- The class `ParserStructureException`, derived from `ParserException`. -/
structure ParserStructureException extends ParserException
deriving DecidableEq, Repr

/-- The class `ParserSemanticException`, derived from `ParserException`. -/
structure ParserSemanticException extends ParserException
deriving DecidableEq, Repr

/-- The C++ library function `std::to_wstring` on a `size_t`: the decimal numeral of the
value, as `%lu` prints it. -/
def to_wstring_size_t (digit : Nat) : List Char :=
  Nat.toDigits 10 digit

/-- The C++ library function `std::to_wstring` on an `int`: the decimal numeral of the
value as `%d` prints it, with a minus sign in front of a negative value. -/
def to_wstring_int (digit : Int) : List Char :=
  if digit < 0 then '-' :: Nat.toDigits 10 digit.natAbs else Nat.toDigits 10 digit.natAbs

/-- An operand of `operator<<` of one of the wide kinds; the constructor is the static
type of the operand, which selects the overload. A wide C string is given by the
characters in front of its terminating zero. -/
inductive Operand where
  | size_t (digit : Nat)
  | int (digit : Int)
  | wchar_t (symbol : Char)
  | wideCString (text : List Char)
  | wstring (text : List Char)
deriving DecidableEq, Repr

/-- The constructors `Exception(const std::wstring &)` and `Exception(const wchar_t *)`:
`m_text` is initialised with the text. -/
def Exception.ctor (text : List Char) : Exception :=
  { m_text := text }

/-- The overload `Exception::operator<<(size_t digit)`. -/
def Exception.shl_size_t (e : Exception) (digit : Nat) : Exception :=
  { e with m_text := e.m_text ++ to_wstring_size_t digit }

/-- The overload `Exception::operator<<(int digit)`. -/
def Exception.shl_int (e : Exception) (digit : Int) : Exception :=
  { e with m_text := e.m_text ++ to_wstring_int digit }

/-- The overload `Exception::operator<<(wchar_t symbol)`: the symbol is put into an empty
string `_s`, which is appended. -/
def Exception.shl_wchar_t (e : Exception) (symbol : Char) : Exception :=
  let _s : List Char := [] ++ [symbol]
  { e with m_text := e.m_text ++ _s }

/-- The overload `Exception::operator<<(const wchar_t *text)`. -/
def Exception.shl_wideCString (e : Exception) (text : List Char) : Exception :=
  { e with m_text := e.m_text ++ text }

/-- The overload `Exception::operator<<(const std::wstring &text)`. -/
def Exception.shl_wstring (e : Exception) (text : List Char) : Exception :=
  { e with m_text := e.m_text ++ text }

/-- The expression `e << x` on an `Exception`: overload resolution by the type of `x`. -/
def Exception.shl (e : Exception) : Operand → Exception
  | .size_t digit => e.shl_size_t digit
  | .int digit => e.shl_int digit
  | .wchar_t symbol => e.shl_wchar_t symbol
  | .wideCString text => e.shl_wideCString text
  | .wstring text => e.shl_wstring text

/-- The method `Exception::what`. -/
def Exception.what (e : Exception) : List Char :=
  e.m_text

/-- The constructor template of `ParserException`: it passes its argument to the
constructor of `Exception`. -/
def ParserException.ctor (ch : List Char) : ParserException :=
  { toException := Exception.ctor ch }

/-- The template `ParserException::operator<<`: `static_cast<Exception&>(*this) << t`,
then `*this` is returned. -/
def ParserException.shl (e : ParserException) (t : Operand) : ParserException :=
  { e with toException := e.toException.shl t }

/-- The constructor template of `ParserStructureException`. -/
def ParserStructureException.ctor (ch : List Char) : ParserStructureException :=
  { toParserException := ParserException.ctor ch }

/-- The template `ParserStructureException::operator<<`:
`static_cast<ParserException&>(*this) << t`, then `*this` is returned. -/
def ParserStructureException.shl (e : ParserStructureException) (t : Operand) :
    ParserStructureException :=
  { e with toParserException := e.toParserException.shl t }

/-- The constructor template of `ParserSemanticException`. -/
def ParserSemanticException.ctor (ch : List Char) : ParserSemanticException :=
  { toParserException := ParserException.ctor ch }

/-- The template `ParserSemanticException::operator<<`. -/
def ParserSemanticException.shl (e : ParserSemanticException) (t : Operand) :
    ParserSemanticException :=
  { e with toParserException := e.toParserException.shl t }

/-- The rendering of an operand in the words of the claim: an integer as its decimal
digits, with a leading minus sign for a negative `int`; a `wchar_t` as that single
character; a string as itself. -/
def render : Operand → List Char
  | .size_t digit => Nat.toDigits 10 digit
  | .int digit =>
    if digit < 0 then '-' :: Nat.toDigits 10 digit.natAbs else Nat.toDigits 10 digit.natAbs
  | .wchar_t symbol => [symbol]
  | .wideCString text => text
  | .wstring text => text

/-- The renderings of a sequence of operands, one after the other. -/
def renderAll : List Operand → List Char
  | [] => []
  | x :: xs => render x ++ renderAll xs

/-- The number a string of decimal digits denotes, read from left to right. -/
def decimalValue (s : List Char) : Nat :=
  s.foldl (fun a ch => 10 * a + (ch.toNat - 48)) 0

end FileParser

/-! ## The table with its rows in the free store

A second embedding of the class, used for the claims about shared storage. The rows live
in a store, a row pointer is an address of the store, and `m_data` is the array of row
pointers of one object. `new CharacterTypeTraits[j_size]` takes the next unused address;
`delete []` leaves the store as it is, so an address is never handed out twice. The array
of row pointers belongs to its object: every assignment to `m_data` in the class is a
new-expression or `nullptr`. -/

namespace PointerModel

/-- The free store of rows: address `a` holds the row `h[a]`. -/
abbrev RowStore := List (List CharacterTypeTraits)

/-- The data members of one object of the class; `m_data` is the array of row pointers,
`none` the null pointer. -/
structure Table where
  m_defaultCharacterType : CharacterTypePtr
  m_data : Option (List Nat)
  i_size : Nat
  j_size : Nat
deriving DecidableEq, Repr

/-- The method `get_i`. -/
def get_i (o : Table) (index : Nat) : Option Nat :=
  if o.j_size = 0 then none else some (index / o.j_size)

/-- The method `get_j`. -/
def get_j (o : Table) (index : Nat) : Option Nat :=
  if o.j_size = 0 then none else some (index % o.j_size)

/-- The loop of `_reallocate`, run for `i = 0, ..., n - 1`: the store and the entries of
`m_data_new` written so far. Entry `i` is the old pointer `m_data[i]` when `m_data` is
not null and `i < i_size`, and the address of a newly allocated row otherwise. -/
def reallocateLoop (h : RowStore) (o : Table) : Nat → Option (RowStore × List Nat)
  | 0 => some (h, [])
  | n + 1 =>
    match reallocateLoop h o n with
    | none => none
    | some (h1, done) =>
      match o.m_data with
      | some ptrs =>
        if n < o.i_size then
          match ptrs[n]? with
          | some a => some (h1, done ++ [a])
          | none => none
        else some (h1 ++ [CharacterTypeSetData.newRow o.j_size], done ++ [h1.length])
      | none => some (h1 ++ [CharacterTypeSetData.newRow o.j_size], done ++ [h1.length])

/-- The method `_reallocate`. -/
def _reallocate (h : RowStore) (o : Table) (new_size_i : Nat) : Option (RowStore × Table) :=
  match reallocateLoop h o new_size_i with
  | none => none
  | some (h1, m_data_new) => some (h1, { o with i_size := new_size_i, m_data := some m_data_new })

/-- The read access `m_data[i][j]`. -/
def readCell (h : RowStore) (o : Table) (i j : Nat) : Option CharacterTypeTraits :=
  match o.m_data with
  | none => none
  | some ptrs =>
    match ptrs[i]? with
    | none => none
    | some a =>
      match h[a]? with
      | none => none
      | some row => row[j]?

/-- A write access to `m_data[i][j]`: the store after the write. -/
def writeCell (h : RowStore) (o : Table) (i j : Nat)
    (f : CharacterTypeTraits → CharacterTypeTraits) : Option RowStore :=
  match o.m_data with
  | none => none
  | some ptrs =>
    match ptrs[i]? with
    | none => none
    | some a =>
      match h[a]? with
      | none => none
      | some row =>
        match row[j]? with
        | none => none
        | some x => some (h.set a (row.set j (f x)))

/-- The method `setDafaultCharacterTypeInPosition`. -/
def setDafaultCharacterTypeInPosition (h : RowStore) (o : Table) (i j iCharacter : Nat) :
    Option RowStore :=
  match writeCell h o i j (fun x => { x with m_characterTypePtr := o.m_defaultCharacterType }) with
  | none => none
  | some h1 =>
    match writeCell h1 o i j (fun x => { x with m_compareValue := iCharacter }) with
    | none => none
    | some h2 =>
      writeCell h2 o i j (fun x => { x with m_caseInsensetiveCompareValue := iCharacter })

/-- The method `createDefaultCharacterTypeInPosition`. -/
def createDefaultCharacterTypeInPosition (h : RowStore) (o : Table) (i j iCharacter : Nat) :
    Option (RowStore × Table) :=
  match (if i ≥ o.i_size then _reallocate h o (i + 1) else some (h, o)) with
  | none => none
  | some (h0, o0) =>
    match writeCell h0 o0 i j
        (fun x => { x with m_characterTypePtr := o0.m_defaultCharacterType }) with
    | none => none
    | some h1 =>
      match writeCell h1 o0 i j (fun x => { x with m_compareValue := iCharacter }) with
      | none => none
      | some h2 =>
        match writeCell h2 o0 i j
            (fun x => { x with m_caseInsensetiveCompareValue := iCharacter }) with
        | none => none
        | some h3 => some (h3, o0)

/-- The method `touchElement`. -/
def touchElement (h : RowStore) (o : Table) (iCharacter : Nat) :
    Option (RowStore × Table × Coordinates) :=
  match get_i o iCharacter, get_j o iCharacter with
  | some i, some j =>
    match (if i ≥ o.i_size then createDefaultCharacterTypeInPosition h o i j iCharacter
           else some (h, o)) with
    | none => none
    | some (h1, o1) =>
      match readCell h1 o1 i j with
      | none => none
      | some x =>
        if x.m_characterTypePtr = none then
          match setDafaultCharacterTypeInPosition h1 o1 i j iCharacter with
          | none => none
          | some h2 => some (h2, o1, { i := i, j := j })
        else some (h1, o1, { i := i, j := j })
  | _, _ => none

/-- The method `clear`: it reads `m_data[i]` for every `i < i_size`; freeing leaves the
store as it is. -/
def clear (o : Table) : Option Unit :=
  match o.m_data with
  | none => if o.i_size = 0 then some () else none
  | some ptrs => if o.i_size ≤ ptrs.length then some () else none

/-- The constructor. -/
def construct (h : RowStore) (defaultCharacterType : CharacterTypePtr)
    (initialContainerSize : Nat) : Option (RowStore × Table) :=
  _reallocate h
    { m_defaultCharacterType := defaultCharacterType, m_data := none, i_size := 0
      j_size := initialContainerSize } 0

/-- The copy loop of `operator=`, run for `i = 0, ..., n - 1`: row `i` is a newly
allocated row of `j_size` cells, overwritten by `memcpy` with the first `j_size` cells of
the row `rhs.m_data[i]`. -/
def copyLoop (h : RowStore) (rhsPtrs : List Nat) (j_size : Nat) :
    Nat → Option (RowStore × List Nat)
  | 0 => some (h, [])
  | n + 1 =>
    match copyLoop h rhsPtrs j_size n with
    | none => none
    | some (h1, done) =>
      match rhsPtrs[n]? with
      | none => none
      | some a =>
        match h1[a]? with
        | none => none
        | some row =>
          if j_size ≤ row.length then some (h1 ++ [row.take j_size], done ++ [h1.length])
          else none

/-- The method `operator=`; `sameObject` is the outcome of the test `this == &rhs`. -/
def operatorAssign (sameObject : Bool) (h : RowStore) (this rhs : Table) :
    Option (RowStore × Table) :=
  if sameObject then some (h, this)
  else
    match this.m_data with
    | none => some (h, this)
    | some _ =>
      match clear this with
      | none => none
      | some _ =>
        match rhs.m_data with
        | none =>
          some (h, { m_defaultCharacterType := rhs.m_defaultCharacterType, m_data := none
                     i_size := rhs.i_size, j_size := rhs.j_size })
        | some rhsPtrs =>
          match copyLoop h rhsPtrs rhs.j_size rhs.i_size with
          | none => none
          | some (h1, ptrs) =>
            some (h1, { m_defaultCharacterType := rhs.m_defaultCharacterType
                        m_data := some ptrs, i_size := rhs.i_size, j_size := rhs.j_size })

/-- The method `getCharacterType`. -/
def getCharacterType (h : RowStore) (o : Table) (iCharacter : Nat) :
    Option (RowStore × Table × CharacterTypePtr) :=
  match touchElement h o iCharacter with
  | none => none
  | some (h1, o1, coord) =>
    match readCell h1 o1 coord.i coord.j with
    | none => none
    | some x => some (h1, o1, x.m_characterTypePtr)

/-- The method `getCompareCharacter`. -/
def getCompareCharacter (h : RowStore) (o : Table) (iCharacter : Nat) :
    Option (RowStore × Table × Nat) :=
  match touchElement h o iCharacter with
  | none => none
  | some (h1, o1, coord) =>
    match readCell h1 o1 coord.i coord.j with
    | none => none
    | some x => some (h1, o1, x.m_compareValue)

/-- The method `getCompareCharacterInsensetive`. -/
def getCompareCharacterInsensetive (h : RowStore) (o : Table) (iCharacter : Nat) :
    Option (RowStore × Table × Nat) :=
  match touchElement h o iCharacter with
  | none => none
  | some (h1, o1, coord) =>
    match readCell h1 o1 coord.i coord.j with
    | none => none
    | some x => some (h1, o1, x.m_caseInsensetiveCompareValue)

/-- The method `setCharacterType`. -/
def setCharacterType (h : RowStore) (o : Table) (index : Nat) (ptr : CharacterTypePtr) :
    Option (RowStore × Table) :=
  match touchElement h o index with
  | none => none
  | some (h1, o1, coord) =>
    match writeCell h1 o1 coord.i coord.j (fun x => { x with m_characterTypePtr := ptr }) with
    | none => none
    | some h2 => some (h2, o1)

/-- The method `setCompareCharacter`. -/
def setCompareCharacter (h : RowStore) (o : Table) (index iCharacter : Nat) :
    Option (RowStore × Table) :=
  match touchElement h o index with
  | none => none
  | some (h1, o1, coord) =>
    match writeCell h1 o1 coord.i coord.j (fun x => { x with m_compareValue := iCharacter }) with
    | none => none
    | some h2 => some (h2, o1)

/-- The method `setCompareCharacterInsensetive`. -/
def setCompareCharacterInsensetive (h : RowStore) (o : Table) (index iCharacter : Nat) :
    Option (RowStore × Table) :=
  match touchElement h o index with
  | none => none
  | some (h1, o1, coord) =>
    match writeCell h1 o1 coord.i coord.j
        (fun x => { x with m_caseInsensetiveCompareValue := iCharacter }) with
    | none => none
    | some h2 => some (h2, o1)

/-- One call on the object `o`: the store and the object after it. -/
def run (h : RowStore) (o : Table) : CharacterTypeSetData.Op → Option (RowStore × Table)
  | .getCharacterType c => (getCharacterType h o c).map fun r => (r.1, r.2.1)
  | .getCompareCharacter c => (getCompareCharacter h o c).map fun r => (r.1, r.2.1)
  | .getCompareCharacterInsensetive c =>
    (getCompareCharacterInsensetive h o c).map fun r => (r.1, r.2.1)
  | .setCharacterType c ptr => setCharacterType h o c ptr
  | .setCompareCharacter c v => setCompareCharacter h o c v
  | .setCompareCharacterInsensetive c v => setCompareCharacterInsensetive h o c v

/-- A sequence of calls on one object, made from left to right. -/
def runOps (h : RowStore) (o : Table) : List CharacterTypeSetData.Op → Option (RowStore × Table)
  | [] => some (h, o)
  | op :: ops =>
    match run h o op with
    | none => none
    | some (h1, o1) => runOps h1 o1 ops

/-- The three values a caller reads at code point `c` from the object `o` in the store
`h`. -/
def observe (h : RowStore) (o : Table) (c : Nat) : Option (CharacterTypePtr × Nat × Nat) :=
  match getCharacterType h o c, getCompareCharacter h o c,
    getCompareCharacterInsensetive h o c with
  | some a, some b, some d => some (a.2.2, b.2.2, d.2.2)
  | _, _, _ => none

/-- The row pointers an object holds. -/
def rowsOf (o : Table) : List Nat :=
  o.m_data.getD []

/-- The table value an object stands for: each row pointer replaced by the row it points
to. -/
def value (h : RowStore) (o : Table) : CharacterTypeSetData :=
  { m_defaultCharacterType := o.m_defaultCharacterType
    m_data := o.m_data.map fun ptrs => ptrs.map fun a => (h[a]?).getD []
    i_size := o.i_size
    j_size := o.j_size }

/-- The object `o` is sound in the store `h`: its array of row pointers is allocated,
the row pointers are different allocated addresses, and the value is an array of
`i_size` rows of `j_size` cells. -/
def Valid (h : RowStore) (o : Table) : Prop :=
  (∃ ptrs, o.m_data = some ptrs) ∧ (rowsOf o).Nodup ∧ (∀ a ∈ rowsOf o, a < h.length) ∧
    CharacterTypeSetData.WF (value h o)

/-- The footprint of a method call on `o`, from store `h` to store `h1` and object `o1`:
the store only grows, rows of the old store that `o` does not point to are as they were,
and every row `o1` points to is a row of `o` or newly allocated. -/
structure Step (h : RowStore) (o : Table) (h1 : RowStore) (o1 : Table) : Prop where
  valid : Valid h1 o1
  grows : h.length ≤ h1.length
  frame : ∀ a, a < h.length → a ∉ rowsOf o → h1[a]? = h[a]?
  owned : ∀ a ∈ rowsOf o1, a ∈ rowsOf o ∨ h.length ≤ a
  dflt : o1.m_defaultCharacterType = o.m_defaultCharacterType
  width : o1.j_size = o.j_size

/-- Two objects in one store that share no row. -/
def Separate (h : RowStore) (a b : Table) : Prop :=
  Valid h a ∧ Valid h b ∧ ∀ p ∈ rowsOf a, p ∉ rowsOf b

end PointerModel

namespace CharacterTypeSetData

/-! ## Cells of a well-formed table -/

theorem readCell_isSome_of_lt {t : CharacterTypeSetData} (h : WF t) {i j : Nat}
    (hi : i < t.i_size) (hj : j < t.j_size) : ∃ x, readCell t i j = some x := by
  obtain ⟨rows, hd, hl, hr⟩ := h
  have h1 : rows[i]? = some rows[i] := List.getElem?_eq_getElem (by omega)
  have h2 := hr i _ h1
  have h3 : (rows[i])[j]? = some (rows[i])[j] := List.getElem?_eq_getElem (by omega)
  exact ⟨(rows[i])[j], by simp [readCell, hd, h1, h3]⟩

theorem readCell_eq_none_of_le {t : CharacterTypeSetData} (h : WF t) {i : Nat} (j : Nat)
    (hi : t.i_size ≤ i) : readCell t i j = none := by
  obtain ⟨rows, hd, hl, _⟩ := h
  have h1 : rows[i]? = none := List.getElem?_eq_none (by omega)
  simp [readCell, hd, h1]

theorem writeCell_spec {t : CharacterTypeSetData} {i j : Nat} {x : CharacterTypeTraits}
    (f : CharacterTypeTraits → CharacterTypeTraits) (h : readCell t i j = some x) :
    ∃ t1, writeCell t i j f = some t1 ∧
      t1.m_defaultCharacterType = t.m_defaultCharacterType ∧
      t1.i_size = t.i_size ∧ t1.j_size = t.j_size ∧
      readCell t1 i j = some (f x) ∧
      (∀ i1 j1, (i1 ≠ i ∨ j1 ≠ j) → readCell t1 i1 j1 = readCell t i1 j1) ∧
      (WF t → WF t1) := by
  unfold readCell at h
  cases hd : t.m_data with
  | none => simp [hd] at h
  | some rows =>
    simp only [hd] at h
    cases hrow : rows[i]? with
    | none => simp [hrow] at h
    | some row =>
      simp only [hrow] at h
      have hi : i < rows.length := by
        by_contra hc
        rw [List.getElem?_eq_none (by omega)] at hrow
        cases hrow
      have hj : j < row.length := by
        by_contra hc
        rw [List.getElem?_eq_none (by omega)] at h
        cases h
      refine ⟨{ t with m_data := some (rows.set i (row.set j (f x))) }, ?_, rfl, rfl, rfl, ?_, ?_, ?_⟩
      · simp [writeCell, hd, hrow, h]
      · simp [readCell, List.getElem?_set, hi, hj]
      · intro i1 j1 hne
        by_cases hii : i = i1
        · subst hii
          have hjj : j ≠ j1 := by
            rcases hne with h1 | h1
            · exact absurd rfl h1
            · exact fun e => h1 e.symm
          simp [readCell, hd, List.getElem?_set, hi, hrow, hjj]
        · simp [readCell, hd, List.getElem?_set, hii]
      · rintro ⟨rows1, hd1, hl1, hr1⟩
        rw [hd] at hd1
        cases hd1
        refine ⟨_, rfl, by simpa using hl1, ?_⟩
        intro k r hk
        rw [List.getElem?_set] at hk
        by_cases hik : i = k
        · subst hik
          simp [hi] at hk
          subst hk
          simpa using hr1 i row hrow
        · simp [hik] at hk
          exact hr1 k r hk

/-! ## Growth -/

theorem reallocateLoop_eq {t : CharacterTypeSetData} {rows : List (List CharacterTypeTraits)}
    (hd : t.m_data = some rows) (hl : rows.length = t.i_size) (n : Nat) :
    reallocateLoop t n
      = some (rows.take n ++ List.replicate (n - t.i_size) (newRow t.j_size)) := by
  induction n with
  | zero => simp [reallocateLoop]
  | succ n ih =>
    simp only [reallocateLoop, ih, hd]
    by_cases h : n < t.i_size
    · have h1 : rows[n]? = some rows[n] := List.getElem?_eq_getElem (by omega)
      have h2 : n - t.i_size = 0 := by omega
      have h3 : n + 1 - t.i_size = 0 := by omega
      rw [h1, h2, h3, List.take_succ, h1]
      simp [h]
    · have h2 : n + 1 - t.i_size = (n - t.i_size) + 1 := by omega
      have h4 : rows.take n = rows := List.take_of_length_le (by omega)
      have h5 : rows.take (n + 1) = rows := List.take_of_length_le (by omega)
      rw [h2, h4, h5, List.replicate_succ']
      simp [h]

theorem _reallocate_spec {t : CharacterTypeSetData} (h : WF t) {n : Nat}
    (hn : t.i_size ≤ n) :
    ∃ t1, _reallocate t n = some t1 ∧
      t1.m_defaultCharacterType = t.m_defaultCharacterType ∧
      t1.i_size = n ∧ t1.j_size = t.j_size ∧ WF t1 ∧
      (∀ i j, i < t.i_size → readCell t1 i j = readCell t i j) ∧
      (∀ i j, t.i_size ≤ i → i < n → j < t.j_size →
        readCell t1 i j = some CharacterTypeTraits.ctor) := by
  obtain ⟨rows, hd, hl, hr⟩ := h
  have hloop := reallocateLoop_eq hd hl n
  have htake : rows.take n = rows := List.take_of_length_le (by omega)
  rw [htake] at hloop
  refine ⟨{ t with i_size := n
                   m_data := some (rows ++ List.replicate (n - t.i_size) (newRow t.j_size)) },
    by simp [_reallocate, hloop], rfl, rfl, rfl, ?_, ?_, ?_⟩
  · refine ⟨_, rfl, by simp; omega, ?_⟩
    intro i row hrow
    by_cases hi : i < rows.length
    · rw [List.getElem?_append_left hi] at hrow
      exact hr i row hrow
    · rw [List.getElem?_append_right (by omega), List.getElem?_replicate] at hrow
      split at hrow
      · cases hrow
        simp [newRow]
      · cases hrow
  · intro i j hi
    have hi1 : i < rows.length := by omega
    simp [readCell, hd, List.getElem?_append_left hi1]
  · intro i j hi hin hj
    have h1 : (rows ++ List.replicate (n - t.i_size) (newRow t.j_size))[i]?
        = some (newRow t.j_size) := by
      rw [List.getElem?_append_right (by omega), List.getElem?_replicate]
      simp
      omega
    simp only [readCell]
    rw [h1]
    simp [newRow, List.getElem?_replicate, hj]

theorem CellSpec.write {t t1 : CharacterTypeSetData} {c : Nat} {x : CharacterTypeTraits}
    (h : CellSpec t t1 c x) (f : CharacterTypeTraits → CharacterTypeTraits) :
    ∃ t2, writeCell t1 (c / t.j_size) (c % t.j_size) f = some t2 ∧ CellSpec t t2 c (f x) := by
  obtain ⟨t2, hw, hD, hi, hj, hs, ho, hwf⟩ := writeCell_spec f h.self
  refine ⟨t2, hw, ?_⟩
  constructor
  · exact hwf h.wf
  · rw [hD, h.dflt]
  · rw [hj, h.width]
  · rw [hi, h.rowCount]
  · exact hs
  · intro i j hlt hne
    rw [ho i j hne, h.old i j hlt hne]
  · intro i j hle hlt hjw hne
    rw [ho i j hne]
    exact h.fresh i j hle (by rw [← hi]; exact hlt) hjw hne

theorem CellSpec.setDafault {t t1 : CharacterTypeSetData} {c : Nat} {x : CharacterTypeTraits}
    (h : CellSpec t t1 c x) :
    ∃ t2, setDafaultCharacterTypeInPosition t1 (c / t.j_size) (c % t.j_size) c = some t2 ∧
      CellSpec t t2 c
        { m_characterTypePtr := t.m_defaultCharacterType, m_compareValue := c
          m_caseInsensetiveCompareValue := c } := by
  obtain ⟨t2, hw2, h2⟩ := h.write (fun x => { x with m_characterTypePtr := t1.m_defaultCharacterType })
  obtain ⟨t3, hw3, h3⟩ := h2.write (fun x => { x with m_compareValue := c })
  obtain ⟨t4, hw4, h4⟩ := h3.write (fun x => { x with m_caseInsensetiveCompareValue := c })
  refine ⟨t4, ?_, ?_⟩
  · simp [setDafaultCharacterTypeInPosition, hw2, hw3, hw4]
  · simpa [h.dflt] using h4

/-! ## The touch -/

theorem touchElement_spec {t : CharacterTypeSetData} (h : WF t) (hw : 0 < t.j_size)
    (c : Nat) :
    ∃ t1, touchElement t c = some (t1, { i := c / t.j_size, j := c % t.j_size }) ∧
      CellSpec t t1 c (effective t c) := by
  have hw0 : t.j_size ≠ 0 := by omega
  have hjlt : c % t.j_size < t.j_size := Nat.mod_lt _ hw
  by_cases hi : t.i_size ≤ c / t.j_size
  · obtain ⟨t0, hr, hD, hi0, hj0, hwf0, hold, hfresh⟩ :=
      _reallocate_spec h (show t.i_size ≤ c / t.j_size + 1 by omega)
    have hc0 : CellSpec t t0 c CharacterTypeTraits.ctor :=
      { wf := hwf0, dflt := hD, width := hj0
        rowCount := by rw [hi0]; omega
        self := hfresh _ _ hi (by omega) hjlt
        old := fun i j hlt _ => hold i j hlt
        fresh := fun i j hle hlt hj _ => hfresh i j hle (by rw [hi0] at hlt; exact hlt) hj }
    obtain ⟨t1, hw1, h1⟩ :=
      hc0.write (fun x => { x with m_characterTypePtr := t0.m_defaultCharacterType })
    obtain ⟨t2, hw2, h2⟩ := h1.write (fun x => { x with m_compareValue := c })
    obtain ⟨t3, hw3, h3⟩ := h2.write (fun x => { x with m_caseInsensetiveCompareValue := c })
    have hcreate : createDefaultCharacterTypeInPosition t (c / t.j_size) (c % t.j_size) c
        = some t3 := by
      simp [createDefaultCharacterTypeInPosition, hi, hr, hw1, hw2, hw3]
    have heff : effective t c =
        { m_characterTypePtr := t.m_defaultCharacterType, m_compareValue := c
          m_caseInsensetiveCompareValue := c } := by
      simp [effective, readCell_eq_none_of_le h _ hi]
    simp only [CharacterTypeTraits.ctor, hD] at h3
    rw [heff]
    by_cases hDn : t.m_defaultCharacterType = none
    · obtain ⟨t4, hs, h4⟩ := h3.setDafault
      refine ⟨t4, ?_, h4⟩
      simp [touchElement, get_i, get_j, hw0, hi, hcreate, h3.self, hDn, hs]
    · refine ⟨t3, ?_, h3⟩
      simp [touchElement, get_i, get_j, hw0, hi, hcreate, h3.self, hDn]
  · have hlt : c / t.j_size < t.i_size := by omega
    obtain ⟨x, hx⟩ := readCell_isSome_of_lt h hlt hjlt
    have hc0 : CellSpec t t c x :=
      { wf := h, dflt := rfl, width := rfl
        rowCount := by omega
        self := hx
        old := fun _ _ _ _ => rfl
        fresh := fun i j hle hlt _ _ => absurd hlt (by omega) }
    by_cases hxn : x.m_characterTypePtr = none
    · obtain ⟨t4, hs, h4⟩ := hc0.setDafault
      have heff : effective t c =
          { m_characterTypePtr := t.m_defaultCharacterType, m_compareValue := c
            m_caseInsensetiveCompareValue := c } := by
        simp [effective, hx, normalize, hxn]
      rw [heff]
      refine ⟨t4, ?_, h4⟩
      simp [touchElement, get_i, get_j, hw0, hi, hx, hxn, hs]
    · have heff : effective t c = x := by
        simp [effective, hx, normalize, hxn]
      rw [heff]
      refine ⟨t, ?_, hc0⟩
      simp [touchElement, get_i, get_j, hw0, hi, hx, hxn]

theorem normalize_idem (D : CharacterTypePtr) (c : Nat) (x : CharacterTypeTraits) :
    normalize D c (normalize D c x) = normalize D c x := by
  unfold normalize
  by_cases hx : x.m_characterTypePtr = none
  · by_cases hD : D = none <;> simp [hx, hD]
  · simp [hx]

theorem normalize_effective (t : CharacterTypeSetData) (c : Nat) :
    normalize t.m_defaultCharacterType c (effective t c) = effective t c := by
  unfold effective
  cases readCell t (c / t.j_size) (c % t.j_size) with
  | none =>
    unfold normalize
    by_cases hD : t.m_defaultCharacterType = none <;> simp [hD]
  | some x => exact normalize_idem _ _ _

theorem CellSpec.effective_self {t t1 : CharacterTypeSetData} {c : Nat}
    {x : CharacterTypeTraits} (h : CellSpec t t1 c x) :
    effective t1 c = normalize t.m_defaultCharacterType c x := by
  simp [effective, h.width, h.self, h.dflt]

theorem coords_ne {w c c1 : Nat} (hne : c1 ≠ c) :
    c1 / w ≠ c / w ∨ c1 % w ≠ c % w := by
  by_contra hcon
  push_neg at hcon
  apply hne
  rw [← Nat.div_add_mod c1 w, ← Nat.div_add_mod c w, hcon.1, hcon.2]

theorem CellSpec.effective_other {t t1 : CharacterTypeSetData} {c : Nat}
    {x : CharacterTypeTraits} (h : CellSpec t t1 c x) (hwf : WF t) (hw : 0 < t.j_size)
    {c1 : Nat} (hne : c1 ≠ c) : effective t1 c1 = effective t c1 := by
  have hco := coords_ne (w := t.j_size) hne
  have hjlt : c1 % t.j_size < t.j_size := Nat.mod_lt _ hw
  unfold effective
  rw [h.width, h.dflt]
  by_cases hi : c1 / t.j_size < t.i_size
  · rw [h.old _ _ hi hco]
  · rw [readCell_eq_none_of_le hwf _ (by omega)]
    by_cases hi1 : c1 / t.j_size < t1.i_size
    · rw [h.fresh _ _ (by omega) hi1 hjlt hco]
      simp [normalize, CharacterTypeTraits.ctor]
    · rw [readCell_eq_none_of_le h.wf _ (by omega)]

theorem CellSpec.width_pos {t t1 : CharacterTypeSetData} {c : Nat}
    {x : CharacterTypeTraits} (h : CellSpec t t1 c x) (hw : 0 < t.j_size) :
    0 < t1.j_size := by
  rw [h.width]; exact hw

/-! ## The six public methods -/

theorem getCharacterType_spec {t : CharacterTypeSetData} (h : WF t) (hw : 0 < t.j_size)
    (c : Nat) :
    ∃ t1, getCharacterType t c = some (t1, (effective t c).m_characterTypePtr) ∧
      CellSpec t t1 c (effective t c) := by
  obtain ⟨t1, ht, hs⟩ := touchElement_spec h hw c
  exact ⟨t1, by simp [getCharacterType, ht, hs.self], hs⟩

theorem getCompareCharacter_spec {t : CharacterTypeSetData} (h : WF t) (hw : 0 < t.j_size)
    (c : Nat) :
    ∃ t1, getCompareCharacter t c = some (t1, (effective t c).m_compareValue) ∧
      CellSpec t t1 c (effective t c) := by
  obtain ⟨t1, ht, hs⟩ := touchElement_spec h hw c
  exact ⟨t1, by simp [getCompareCharacter, ht, hs.self], hs⟩

theorem getCompareCharacterInsensetive_spec {t : CharacterTypeSetData} (h : WF t)
    (hw : 0 < t.j_size) (c : Nat) :
    ∃ t1, getCompareCharacterInsensetive t c
        = some (t1, (effective t c).m_caseInsensetiveCompareValue) ∧
      CellSpec t t1 c (effective t c) := by
  obtain ⟨t1, ht, hs⟩ := touchElement_spec h hw c
  exact ⟨t1, by simp [getCompareCharacterInsensetive, ht, hs.self], hs⟩

theorem setCharacterType_spec {t : CharacterTypeSetData} (h : WF t) (hw : 0 < t.j_size)
    (c : Nat) (ptr : CharacterTypePtr) :
    ∃ t1, setCharacterType t c ptr = some t1 ∧
      CellSpec t t1 c { effective t c with m_characterTypePtr := ptr } := by
  obtain ⟨t1, ht, hs⟩ := touchElement_spec h hw c
  obtain ⟨t2, hw2, h2⟩ := hs.write (fun x => { x with m_characterTypePtr := ptr })
  exact ⟨t2, by simp [setCharacterType, ht, hw2], h2⟩

theorem setCompareCharacter_spec {t : CharacterTypeSetData} (h : WF t) (hw : 0 < t.j_size)
    (c v : Nat) :
    ∃ t1, setCompareCharacter t c v = some t1 ∧
      CellSpec t t1 c { effective t c with m_compareValue := v } := by
  obtain ⟨t1, ht, hs⟩ := touchElement_spec h hw c
  obtain ⟨t2, hw2, h2⟩ := hs.write (fun x => { x with m_compareValue := v })
  exact ⟨t2, by simp [setCompareCharacter, ht, hw2], h2⟩

theorem setCompareCharacterInsensetive_spec {t : CharacterTypeSetData} (h : WF t)
    (hw : 0 < t.j_size) (c v : Nat) :
    ∃ t1, setCompareCharacterInsensetive t c v = some t1 ∧
      CellSpec t t1 c { effective t c with m_caseInsensetiveCompareValue := v } := by
  obtain ⟨t1, ht, hs⟩ := touchElement_spec h hw c
  obtain ⟨t2, hw2, h2⟩ := hs.write (fun x => { x with m_caseInsensetiveCompareValue := v })
  exact ⟨t2, by simp [setCompareCharacterInsensetive, ht, hw2], h2⟩

/-- Every call succeeds on a well-formed table of positive width and acts on the cell
of its code point only. -/
theorem Op.run_spec {t : CharacterTypeSetData} (h : WF t) (hw : 0 < t.j_size) (op : Op) :
    ∃ t1 x, op.run t = some t1 ∧ CellSpec t t1 op.index x := by
  cases op with
  | getCharacterType c =>
    obtain ⟨t1, hr, hs⟩ := getCharacterType_spec h hw c
    exact ⟨t1, _, by simp [Op.run, hr], hs⟩
  | getCompareCharacter c =>
    obtain ⟨t1, hr, hs⟩ := getCompareCharacter_spec h hw c
    exact ⟨t1, _, by simp [Op.run, hr], hs⟩
  | getCompareCharacterInsensetive c =>
    obtain ⟨t1, hr, hs⟩ := getCompareCharacterInsensetive_spec h hw c
    exact ⟨t1, _, by simp [Op.run, hr], hs⟩
  | setCharacterType c ptr =>
    obtain ⟨t1, hr, hs⟩ := setCharacterType_spec h hw c ptr
    exact ⟨t1, _, by simp [Op.run, hr], hs⟩
  | setCompareCharacter c v =>
    obtain ⟨t1, hr, hs⟩ := setCompareCharacter_spec h hw c v
    exact ⟨t1, _, by simp [Op.run, hr], hs⟩
  | setCompareCharacterInsensetive c v =>
    obtain ⟨t1, hr, hs⟩ := setCompareCharacterInsensetive_spec h hw c v
    exact ⟨t1, _, by simp [Op.run, hr], hs⟩

/-- A get call leaves the effective traits of every code point as they were. -/
theorem Op.run_get_effective {t t1 : CharacterTypeSetData} (h : WF t) (hw : 0 < t.j_size)
    {op : Op} (hget : op.isSet = false) (hr : op.run t = some t1) (c1 : Nat) :
    effective t1 c1 = effective t c1 := by
  have key : ∀ c, CellSpec t t1 c (effective t c) → effective t1 c1 = effective t c1 := by
    intro c hs
    by_cases hc : c1 = c
    · subst hc
      rw [hs.effective_self, normalize_effective]
    · exact hs.effective_other h hw hc
  cases op with
  | getCharacterType c =>
    obtain ⟨t2, hr2, hs⟩ := getCharacterType_spec h hw c
    simp [Op.run, hr2] at hr
    subst hr
    exact key c hs
  | getCompareCharacter c =>
    obtain ⟨t2, hr2, hs⟩ := getCompareCharacter_spec h hw c
    simp [Op.run, hr2] at hr
    subst hr
    exact key c hs
  | getCompareCharacterInsensetive c =>
    obtain ⟨t2, hr2, hs⟩ := getCompareCharacterInsensetive_spec h hw c
    simp [Op.run, hr2] at hr
    subst hr
    exact key c hs
  | setCharacterType c ptr => simp [Op.isSet] at hget
  | setCompareCharacter c v => simp [Op.isSet] at hget
  | setCompareCharacterInsensetive c v => simp [Op.isSet] at hget

/-! ## Construction and assignment -/

theorem construct_eq (D : CharacterTypePtr) (w : Nat) :
    construct D w
      = some { m_defaultCharacterType := D, m_data := some [], i_size := 0, j_size := w } :=
  rfl

theorem WF_construct {D : CharacterTypePtr} {w : Nat} {t : CharacterTypeSetData}
    (h : construct D w = some t) : WF t := by
  rw [construct_eq] at h
  cases h
  exact ⟨[], rfl, rfl, by simp⟩

theorem copyLoop_eq {rows : List (List CharacterTypeTraits)} {w : Nat}
    (hr : ∀ (i : Nat) (row : List CharacterTypeTraits), rows[i]? = some row → row.length = w)
    (n : Nat) (hn : n ≤ rows.length) : copyLoop rows w n = some (rows.take n) := by
  induction n with
  | zero => simp [copyLoop]
  | succ n ih =>
    have h1 : rows[n]? = some rows[n] := List.getElem?_eq_getElem (by omega)
    have h2 := hr n _ h1
    have h3 : (rows[n]).take w = rows[n] := List.take_of_length_le (by omega)
    simp only [copyLoop, ih (by omega)]
    rw [h1]
    simp only [h2, le_refl, if_true, h3]
    rw [List.take_succ, h1]
    rfl

/-- Assignment between two different well-formed tables makes the destination equal to
the source. -/
theorem operatorAssign_eq {this rhs : CharacterTypeSetData} (hthis : WF this)
    (hrhs : WF rhs) : operatorAssign false this rhs = some rhs := by
  obtain ⟨rows, hd, hl, _⟩ := hthis
  obtain ⟨rrows, hrd, hrl, hrr⟩ := hrhs
  have hcopy := copyLoop_eq hrr rhs.i_size (by omega)
  have htake : rrows.take rhs.i_size = rrows := List.take_of_length_le (by omega)
  rw [htake] at hcopy
  simp [operatorAssign, hd, clear, hl, hrd, hcopy]
  cases rhs
  simp_all

theorem WF_of_reachable {t : CharacterTypeSetData} (h : Reachable t) : WF t := by
  induction h with
  | construct D w t hc => exact WF_construct hc
  | call op t t1 _ hr ih =>
    by_cases hw : 0 < t.j_size
    · obtain ⟨t2, x, hr2, hs⟩ := Op.run_spec ih hw op
      rw [hr] at hr2
      cases hr2
      exact hs.wf
    · exfalso
      have hw0 : t.j_size = 0 := by omega
      cases op <;>
        simp [Op.run, getCharacterType, getCompareCharacter, getCompareCharacterInsensetive,
          setCharacterType, setCompareCharacter, setCompareCharacterInsensetive,
          touchElement, get_i, hw0] at hr
  | assign sameObject this rhs t1 _ _ hr ih1 ih2 =>
    cases sameObject with
    | true =>
      simp [operatorAssign] at hr
      subst hr
      exact ih1
    | false =>
      rw [operatorAssign_eq ih1 ih2] at hr
      cases hr
      exact ih2

/-! ## Reads in terms of the effective traits -/

theorem observe_eq {t : CharacterTypeSetData} (h : WF t) (hw : 0 < t.j_size) (c : Nat) :
    observe t c = some ((effective t c).m_characterTypePtr, (effective t c).m_compareValue,
      (effective t c).m_caseInsensetiveCompareValue) := by
  obtain ⟨_, h1, _⟩ := getCharacterType_spec h hw c
  obtain ⟨_, h2, _⟩ := getCompareCharacter_spec h hw c
  obtain ⟨_, h3, _⟩ := getCompareCharacterInsensetive_spec h hw c
  simp [observe, h1, h2, h3]

theorem effective_construct (D : CharacterTypePtr) (w c : Nat) :
    effective { m_defaultCharacterType := D, m_data := some [], i_size := 0, j_size := w } c
      = { m_characterTypePtr := D, m_compareValue := c, m_caseInsensetiveCompareValue := c } := by
  simp [effective, readCell]

/-- With a non-null default tag the effective tag of a code point is never null. -/
theorem effective_tag_ne_none {t : CharacterTypeSetData} (hD : t.m_defaultCharacterType ≠ none)
    (c : Nat) : (effective t c).m_characterTypePtr ≠ none := by
  intro hn
  have h := normalize_effective t c
  simp only [normalize, hn, if_true] at h
  rw [← h] at hn
  exact hD hn

/-- A call that is not a set call at `c` keeps the effective traits of `c`. -/
theorem Op.run_effective_of_ne {t t1 : CharacterTypeSetData} (h : WF t) (hw : 0 < t.j_size)
    {op : Op} {c : Nat} (hne : op.isSet = true → op.index ≠ c) (hr : op.run t = some t1) :
    effective t1 c = effective t c := by
  cases hset : op.isSet with
  | false => exact Op.run_get_effective h hw hset hr c
  | true =>
    obtain ⟨t2, x, hr2, hs⟩ := Op.run_spec h hw op
    rw [hr] at hr2
    cases hr2
    exact hs.effective_other h hw (fun e => hne hset e.symm)

/-- A sequence of calls succeeds on a well-formed table of positive width; the row count
afterwards is bounded by the code points of the calls, and a code point no set call was
made at keeps its effective traits. -/
theorem runOps_spec {t : CharacterTypeSetData} (h : WF t) (hw : 0 < t.j_size)
    (ops : List Op) :
    ∃ t1, runOps t ops = some t1 ∧ WF t1 ∧ t1.j_size = t.j_size ∧
      t1.m_defaultCharacterType = t.m_defaultCharacterType ∧
      (∀ m, (∀ op ∈ ops, op.index ≤ m) → t1.i_size ≤ max t.i_size (m / t.j_size + 1)) ∧
      (∀ op ∈ ops, op.index / t.j_size + 1 ≤ t1.i_size) ∧ t.i_size ≤ t1.i_size ∧
      (∀ c, (∀ op ∈ ops, op.isSet = true → op.index ≠ c) → effective t1 c = effective t c) := by
  induction ops generalizing t with
  | nil => exact ⟨t, rfl, h, rfl, rfl, fun m _ => le_max_left _ _, by simp, le_refl _, fun _ _ => rfl⟩
  | cons op ops ih =>
    obtain ⟨t1, x, hr, hs⟩ := Op.run_spec h hw op
    obtain ⟨t2, hr2, hwf2, hj2, hD2, hub, hlb, hmono, heff⟩ := ih hs.wf (hs.width_pos hw)
    refine ⟨t2, by simp [runOps, hr, hr2], hwf2, by rw [hj2, hs.width], by rw [hD2, hs.dflt],
      ?_, ?_, ?_, ?_⟩
    · intro m hm
      have h1 := hub m (fun o ho => hm o (List.mem_cons_of_mem _ ho))
      have h2 : op.index / t.j_size ≤ m / t.j_size :=
        Nat.div_le_div_right (hm op (List.mem_cons_self _ _))
      rw [hs.rowCount, hs.width] at h1
      omega
    · intro o ho
      rcases List.mem_cons.1 ho with rfl | ho
      · have := hs.rowCount
        omega
      · have := hlb o ho
        rw [hs.width] at this
        exact this
    · have := hs.rowCount
      omega
    · intro c hc
      rw [heff c (fun o ho => hc o (List.mem_cons_of_mem _ ho))]
      exact Op.run_effective_of_ne h hw (hc op (List.mem_cons_self _ _)) hr

/-! ## Default read, write-read and locality of writes -/

/-- C1 (default read). For every width `w > 0`, default tag `D` and sequence `ops` of get
and set calls made on a freshly constructed table, and every code point `c` that is not
the index of a set call of `ops`: the calls all succeed, and on the resulting table
`getCharacterType c` returns `D` and `getCompareCharacter c` and
`getCompareCharacterInsensetive c` return `c`. -/
theorem default_read (D : CharacterTypePtr) (w : Nat) (ops : List Op) (c : Nat)
    (hw : 0 < w) (hc : ∀ op ∈ ops, op.isSet = true → op.index ≠ c) :
    ∃ t0 t, construct D w = some t0 ∧ runOps t0 ops = some t ∧
      (getCharacterType t c).map Prod.snd = some D ∧
      (getCompareCharacter t c).map Prod.snd = some c ∧
      (getCompareCharacterInsensetive t c).map Prod.snd = some c := by
  have hwf : WF { m_defaultCharacterType := D, m_data := some [], i_size := 0, j_size := w } :=
    WF_construct (construct_eq D w)
  obtain ⟨t, hr, hwf1, hj, _, _, _, _, heff⟩ := runOps_spec hwf hw ops
  have hw1 : 0 < t.j_size := by rw [hj]; exact hw
  have he := heff c hc
  rw [effective_construct] at he
  obtain ⟨_, h1, _⟩ := getCharacterType_spec hwf1 hw1 c
  obtain ⟨_, h2, _⟩ := getCompareCharacter_spec hwf1 hw1 c
  obtain ⟨_, h3, _⟩ := getCompareCharacterInsensetive_spec hwf1 hw1 c
  exact ⟨_, t, construct_eq D w, hr, by simp [h1, he], by simp [h2, he], by simp [h3, he]⟩

/-- Witness of C1: width 2, default tag `some 7`, two set calls and a get call at other
code points, read at code point 3. -/
theorem default_read_witness :
    ∃ t0 t, construct (some 7) 2 = some t0 ∧
      runOps t0 [Op.setCharacterType 4 (some 9), Op.getCompareCharacter 3,
        Op.setCompareCharacter 1 8] = some t ∧
      (getCharacterType t 3).map Prod.snd = some (some 7) ∧
      (getCompareCharacter t 3).map Prod.snd = some 3 ∧
      (getCompareCharacterInsensetive t 3).map Prod.snd = some 3 :=
  default_read (some 7) 2 _ 3 (by decide) (by decide)

/-- Counterexample to C2 as stated: on a table with default tag `some 7` and width 2,
`setCharacterType 5 nullptr` followed by `getCharacterType 5` returns the default tag
`some 7` and not the null tag that was written. -/
theorem setCharacterType_null_reads_default :
    ((construct (some 7) 2).bind fun t => (setCharacterType t 5 none).bind fun t1 =>
      (getCharacterType t1 5).map Prod.snd) = some (some 7) ∧
    ((construct (some 7) 2).bind fun t => (setCharacterType t 5 none).bind fun t1 =>
      (getCharacterType t1 5).map Prod.snd) ≠ some none := by
  decide

/-- C2, amended (tag write-read). For every reachable table of width > 0, every code
point `c` and every tag reference `T`: `setCharacterType c T` succeeds and the next
`getCharacterType c` returns `T` when `T` is not null, and the default tag of the table
when `T` is null. -/
theorem tag_write_read (t : CharacterTypeSetData) (h : Reachable t) (hw : 0 < t.j_size)
    (c : Nat) (T : CharacterTypePtr) :
    ∃ t1 t2, setCharacterType t c T = some t1 ∧
      getCharacterType t1 c = some (t2, if T = none then t.m_defaultCharacterType else T) := by
  have hwf := WF_of_reachable h
  obtain ⟨t1, hs, hc⟩ := setCharacterType_spec hwf hw c T
  obtain ⟨t2, hg, _⟩ := getCharacterType_spec hc.wf (hc.width_pos hw) c
  refine ⟨t1, t2, hs, ?_⟩
  rw [hg, hc.effective_self]
  unfold normalize
  by_cases hT : T = none <;> simp [hT]

/-- Witness of C2: the table constructed with default tag `some 7` and width 2, code
point 5, tag `some 9`. -/
theorem tag_write_read_witness :
    ∃ t1 t2,
      setCharacterType
        { m_defaultCharacterType := some 7, m_data := some [], i_size := 0, j_size := 2 }
        5 (some 9) = some t1 ∧
      getCharacterType t1 5 = some (t2, some 9) :=
  tag_write_read _ (Reachable.construct (some 7) 2 _ rfl) (by decide) 5 (some 9)

/-- Counterexample to C3 as stated: on a table with a null default tag and width 2,
`setCompareCharacter 3 5` followed by `getCompareCharacter 3` returns 3, and
`setCompareCharacterInsensetive 3 5` followed by `getCompareCharacterInsensetive 3`
returns 3: the value 5 is lost. -/
theorem setCompare_lost_under_null_default :
    ((construct none 2).bind fun t => (setCompareCharacter t 3 5).bind fun t1 =>
      (getCompareCharacter t1 3).map Prod.snd) = some 3 ∧
    ((construct none 2).bind fun t => (setCompareCharacterInsensetive t 3 5).bind fun t1 =>
      (getCompareCharacterInsensetive t1 3).map Prod.snd) = some 3 := by
  decide

/-- C3, amended (compare-value write-read). For every reachable table of width > 0,
every code point `c` and value `v`, let `tag` be what `getCharacterType c` returns on the
table; it is not null when the default tag is not null. Then `setCompareCharacter c v`
succeeds and the next `getCompareCharacter c` returns `v` when `tag` is not null and `c`
when `tag` is null; likewise for `setCompareCharacterInsensetive` and
`getCompareCharacterInsensetive`. -/
theorem compare_write_read (t : CharacterTypeSetData) (h : Reachable t) (hw : 0 < t.j_size)
    (c v : Nat) :
    ∃ t0 tag t1 t2 t3 t4,
      getCharacterType t c = some (t0, tag) ∧
      (t.m_defaultCharacterType ≠ none → tag ≠ none) ∧
      setCompareCharacter t c v = some t1 ∧
      getCompareCharacter t1 c = some (t2, if tag = none then c else v) ∧
      setCompareCharacterInsensetive t c v = some t3 ∧
      getCompareCharacterInsensetive t3 c = some (t4, if tag = none then c else v) := by
  have hwf := WF_of_reachable h
  obtain ⟨t0, hg0, _⟩ := getCharacterType_spec hwf hw c
  obtain ⟨t1, hs1, hc1⟩ := setCompareCharacter_spec hwf hw c v
  obtain ⟨t2, hg2, _⟩ := getCompareCharacter_spec hc1.wf (hc1.width_pos hw) c
  obtain ⟨t3, hs3, hc3⟩ := setCompareCharacterInsensetive_spec hwf hw c v
  obtain ⟨t4, hg4, _⟩ := getCompareCharacterInsensetive_spec hc3.wf (hc3.width_pos hw) c
  refine ⟨t0, _, t1, t2, t3, t4, hg0, fun hD => effective_tag_ne_none hD c, hs1, ?_, hs3, ?_⟩
  · rw [hg2, hc1.effective_self]
    unfold normalize
    by_cases hT : (effective t c).m_characterTypePtr = none <;> simp [hT]
  · rw [hg4, hc3.effective_self]
    unfold normalize
    by_cases hT : (effective t c).m_characterTypePtr = none <;> simp [hT]

/-- Witness of C3: the table constructed with default tag `some 7` and width 2, code
point 3, value 5. -/
theorem compare_write_read_witness :
    ∃ t0 tag t1 t2 t3 t4,
      getCharacterType
        { m_defaultCharacterType := some 7, m_data := some [], i_size := 0, j_size := 2 }
        3 = some (t0, tag) ∧
      ((some 7 : CharacterTypePtr) ≠ none → tag ≠ none) ∧
      setCompareCharacter
        { m_defaultCharacterType := some 7, m_data := some [], i_size := 0, j_size := 2 }
        3 5 = some t1 ∧
      getCompareCharacter t1 3 = some (t2, if tag = none then 3 else 5) ∧
      setCompareCharacterInsensetive
        { m_defaultCharacterType := some 7, m_data := some [], i_size := 0, j_size := 2 }
        3 5 = some t3 ∧
      getCompareCharacterInsensetive t3 3 = some (t4, if tag = none then 3 else 5) :=
  compare_write_read _ (Reachable.construct (some 7) 2 _ rfl) (by decide) 3 5

/-- C4 (writes are local to their code point). For every reachable table of width > 0 and
code points `c1 ≠ c`: each of `setCharacterType c T`, `setCompareCharacter c v` and
`setCompareCharacterInsensetive c v` succeeds, and the three get methods return at `c1`
on the table after the write what they return at `c1` on the table before it, whether or
not the write grows the table. -/
theorem writes_local (t : CharacterTypeSetData) (h : Reachable t) (hw : 0 < t.j_size)
    (c c1 : Nat) (hne : c1 ≠ c) (T : CharacterTypePtr) (v : Nat) :
    ∃ t1 t2 t3 r,
      observe t c1 = some r ∧
      setCharacterType t c T = some t1 ∧ observe t1 c1 = some r ∧
      setCompareCharacter t c v = some t2 ∧ observe t2 c1 = some r ∧
      setCompareCharacterInsensetive t c v = some t3 ∧ observe t3 c1 = some r := by
  have hwf := WF_of_reachable h
  obtain ⟨t1, hs1, hc1⟩ := setCharacterType_spec hwf hw c T
  obtain ⟨t2, hs2, hc2⟩ := setCompareCharacter_spec hwf hw c v
  obtain ⟨t3, hs3, hc3⟩ := setCompareCharacterInsensetive_spec hwf hw c v
  refine ⟨t1, t2, t3, _, observe_eq hwf hw c1, hs1, ?_, hs2, ?_, hs3, ?_⟩
  · rw [observe_eq hc1.wf (hc1.width_pos hw), hc1.effective_other hwf hw hne]
  · rw [observe_eq hc2.wf (hc2.width_pos hw), hc2.effective_other hwf hw hne]
  · rw [observe_eq hc3.wf (hc3.width_pos hw), hc3.effective_other hwf hw hne]

/-- Witness of C4: the table constructed with default tag `some 7` and width 2, writes
at code point 5 (which grow the table), reads at code point 4 of the same row. -/
theorem writes_local_witness :
    ∃ t1 t2 t3 r,
      observe
        { m_defaultCharacterType := some 7, m_data := some [], i_size := 0, j_size := 2 }
        4 = some r ∧
      setCharacterType
        { m_defaultCharacterType := some 7, m_data := some [], i_size := 0, j_size := 2 }
        5 (some 9) = some t1 ∧ observe t1 4 = some r ∧
      setCompareCharacter
        { m_defaultCharacterType := some 7, m_data := some [], i_size := 0, j_size := 2 }
        5 8 = some t2 ∧ observe t2 4 = some r ∧
      setCompareCharacterInsensetive
        { m_defaultCharacterType := some 7, m_data := some [], i_size := 0, j_size := 2 }
        5 8 = some t3 ∧ observe t3 4 = some r :=
  writes_local _ (Reachable.construct (some 7) 2 _ rfl) (by decide) 5 4 (by decide)
    (some 9) 8

/-! ## Growth and the row count -/

/-- C5 (growth correctness). For every reachable table of width > 0 and every code point
`c` whose row lies beyond the current row count, each of the three get methods called at
`c` succeeds and grows the table, and at every other code point `c1` the three get
methods return on the grown table what they return on the table before. Scenario: with
width 128 and default tag `T0`, after `setCharacterType 97 T1` the table has one row,
`getCharacterType 70000` returns `T0` and grows the table to 547 rows, and afterwards
`getCharacterType 65` returns `T0` and `getCharacterType 97` returns `T1`. -/
theorem growth_correct :
    (∀ (t : CharacterTypeSetData) (c : Nat), Reachable t → 0 < t.j_size →
      t.i_size ≤ c / t.j_size →
      ∃ ta ra tb rb td rd,
        getCharacterType t c = some (ta, ra) ∧ t.i_size < ta.i_size ∧
        getCompareCharacter t c = some (tb, rb) ∧ t.i_size < tb.i_size ∧
        getCompareCharacterInsensetive t c = some (td, rd) ∧ t.i_size < td.i_size ∧
        ∀ c1, c1 ≠ c → ∃ r, observe t c1 = some r ∧ observe ta c1 = some r ∧
          observe tb c1 = some r ∧ observe td c1 = some r) ∧
    (∀ (T0 : CharacterTypePtr) (a : Nat), ∃ t0 t1 t2 t3 t4,
      construct T0 128 = some t0 ∧
      setCharacterType t0 97 (some a) = some t1 ∧ t1.i_size = 1 ∧
      getCharacterType t1 70000 = some (t2, T0) ∧ t2.i_size = 547 ∧
      getCharacterType t2 65 = some (t3, T0) ∧
      getCharacterType t3 97 = some (t4, some a)) := by
  constructor
  · intro t c h hw hgrow
    have hwf := WF_of_reachable h
    obtain ⟨ta, ha, hca⟩ := getCharacterType_spec hwf hw c
    obtain ⟨tb, hb, hcb⟩ := getCompareCharacter_spec hwf hw c
    obtain ⟨td, hd, hcd⟩ := getCompareCharacterInsensetive_spec hwf hw c
    refine ⟨ta, _, tb, _, td, _, ha, ?_, hb, ?_, hd, ?_, ?_⟩
    · have := hca.rowCount
      omega
    · have := hcb.rowCount
      omega
    · have := hcd.rowCount
      omega
    · intro c1 hne
      refine ⟨_, observe_eq hwf hw c1, ?_, ?_, ?_⟩
      · rw [observe_eq hca.wf (hca.width_pos hw), hca.effective_other hwf hw hne]
      · rw [observe_eq hcb.wf (hcb.width_pos hw), hcb.effective_other hwf hw hne]
      · rw [observe_eq hcd.wf (hcd.width_pos hw), hcd.effective_other hwf hw hne]
  · intro T0 a
    have hwf0 : WF { m_defaultCharacterType := T0, m_data := some [], i_size := 0
                     j_size := 128 } := WF_construct (construct_eq T0 128)
    have hw0 : 0 < ({ m_defaultCharacterType := T0, m_data := some [], i_size := 0
                      j_size := 128 } : CharacterTypeSetData).j_size := by
      show 0 < 128
      omega
    obtain ⟨t1, hs1, hc1⟩ := setCharacterType_spec hwf0 hw0 97 (some a)
    have hj1 : t1.j_size = 128 := hc1.width
    have hD1 : t1.m_defaultCharacterType = T0 := hc1.dflt
    have hw1 : 0 < t1.j_size := by omega
    have hi1 : t1.i_size = 1 := by
      have h0 : t1.i_size = max 0 (97 / 128 + 1) := hc1.rowCount
      rw [h0]
      decide
    have he97 : effective t1 97 = { m_characterTypePtr := some a, m_compareValue := 97
                                    m_caseInsensetiveCompareValue := 97 } := by
      rw [hc1.effective_self, effective_construct]
      simp [normalize]
    have he65 : effective t1 65 = { m_characterTypePtr := T0, m_compareValue := 65
                                    m_caseInsensetiveCompareValue := 65 } := by
      rw [hc1.effective_other hwf0 hw0 (by decide), effective_construct]
    have he70000 : effective t1 70000 =
        { m_characterTypePtr := T0, m_compareValue := 70000
          m_caseInsensetiveCompareValue := 70000 } := by
      rw [hc1.effective_other hwf0 hw0 (by decide), effective_construct]
    obtain ⟨t2, hg2, hc2⟩ := getCharacterType_spec hc1.wf hw1 70000
    have hw2 : 0 < t2.j_size := hc2.width_pos hw1
    have hi2 : t2.i_size = 547 := by
      have := hc2.rowCount
      rw [hi1, hj1] at this
      simpa using this
    obtain ⟨t3, hg3, hc3⟩ := getCharacterType_spec hc2.wf hw2 65
    have hw3 : 0 < t3.j_size := hc3.width_pos hw2
    obtain ⟨t4, hg4, _⟩ := getCharacterType_spec hc3.wf hw3 97
    refine ⟨_, t1, t2, t3, t4, construct_eq T0 128, hs1, hi1, ?_, hi2, ?_, ?_⟩
    · rw [hg2, he70000]
    · rw [hg3, hc2.effective_other hc1.wf hw1 (by decide), he65]
    · rw [hg4, hc3.effective_other hc2.wf hw2 (by decide),
        hc2.effective_other hc1.wf hw1 (by decide), he97]

/-- Witness of C5: the table constructed with default tag `some 7` and width 2, which has
no rows, and code point 5. -/
theorem growth_correct_witness :
    ∃ ta ra tb rb td rd,
      getCharacterType
        { m_defaultCharacterType := some 7, m_data := some [], i_size := 0, j_size := 2 }
        5 = some (ta, ra) ∧ 0 < ta.i_size ∧
      getCompareCharacter
        { m_defaultCharacterType := some 7, m_data := some [], i_size := 0, j_size := 2 }
        5 = some (tb, rb) ∧ 0 < tb.i_size ∧
      getCompareCharacterInsensetive
        { m_defaultCharacterType := some 7, m_data := some [], i_size := 0, j_size := 2 }
        5 = some (td, rd) ∧ 0 < td.i_size ∧
      ∀ c1, c1 ≠ 5 → ∃ r,
        observe
          { m_defaultCharacterType := some 7, m_data := some [], i_size := 0, j_size := 2 }
          c1 = some r ∧
        observe ta c1 = some r ∧ observe tb c1 = some r ∧ observe td c1 = some r :=
  growth_correct.1 _ 5 (Reachable.construct (some 7) 2 _ rfl) (by decide) (by decide)

/-- C6 (memory is bounded by the highest code point touched). For every width `w > 0`
and default tag `D`: a freshly constructed table has row count 0; one call at code point `c`
on a reachable table of width `w` with `n` rows succeeds and leaves `max n (c / w + 1)`
rows; and after a non-empty sequence of get and set calls on a freshly constructed table
the row count is `m / w + 1`, where `m` is the largest code point of the sequence. -/
theorem row_count (D : CharacterTypePtr) (w : Nat) (hw : 0 < w) :
    (∃ t0, construct D w = some t0 ∧ t0.i_size = 0) ∧
    (∀ (t : CharacterTypeSetData) (op : Op), Reachable t → t.j_size = w →
      ∃ t1, op.run t = some t1 ∧ t1.i_size = max t.i_size (op.index / w + 1)) ∧
    (∀ (ops : List Op) (m : Nat), (∃ op ∈ ops, op.index = m) → (∀ op ∈ ops, op.index ≤ m) →
      ∃ t0 t, construct D w = some t0 ∧ runOps t0 ops = some t ∧ t.i_size = m / w + 1) := by
  refine ⟨⟨_, construct_eq D w, rfl⟩, ?_, ?_⟩
  · intro t op h hj
    have hwf := WF_of_reachable h
    obtain ⟨t1, x, hr, hs⟩ := Op.run_spec hwf (by omega) op
    exact ⟨t1, hr, by rw [hs.rowCount, hj]⟩
  · rintro ops m ⟨op, hop, rfl⟩ hmax
    have hwf : WF { m_defaultCharacterType := D, m_data := some [], i_size := 0, j_size := w } :=
      WF_construct (construct_eq D w)
    obtain ⟨t, hr, _, _, _, hub, hlb, _, _⟩ := runOps_spec hwf hw ops
    refine ⟨_, t, construct_eq D w, hr, ?_⟩
    have h1 : t.i_size ≤ max 0 (op.index / w + 1) := hub _ hmax
    have h2 : op.index / w + 1 ≤ t.i_size := hlb op hop
    rw [Nat.zero_max] at h1
    exact Nat.le_antisymm h1 h2

/-- Witness of C6: default tag `some 7` and width 2. -/
theorem row_count_witness :
    (∃ t0, construct (some 7) 2 = some t0 ∧ t0.i_size = 0) ∧
    (∀ (t : CharacterTypeSetData) (op : Op), Reachable t → t.j_size = 2 →
      ∃ t1, op.run t = some t1 ∧ t1.i_size = max t.i_size (op.index / 2 + 1)) ∧
    (∀ (ops : List Op) (m : Nat), (∃ op ∈ ops, op.index = m) → (∀ op ∈ ops, op.index ≤ m) →
      ∃ t0 t, construct (some 7) 2 = some t0 ∧ runOps t0 ops = some t ∧
        t.i_size = m / 2 + 1) :=
  row_count (some 7) 2 (by decide)

/-! ## Assignment -/

/-- C7 (deep copy). For all reachable tables `A` and `B`, `B` being a different object
in whatever state (freshly constructed or grown, of the same or another width and default
tag), the assignment `B = A` succeeds and leaves in `B` the row count, width, default tag
and cells of `A`: the new value of `B` equals `A`, so the three get methods return on it
what they return on `A` at every code point. The source is passed by const reference and
is not written. -/
theorem deep_copy (A B : CharacterTypeSetData) (hA : Reachable A) (hB : Reachable B) :
    ∃ B1, operatorAssign false B A = some B1 ∧
      B1.i_size = A.i_size ∧ B1.j_size = A.j_size ∧
      B1.m_defaultCharacterType = A.m_defaultCharacterType ∧
      (∀ i j, readCell B1 i j = readCell A i j) ∧
      (∀ c, observe B1 c = observe A c) ∧ B1 = A :=
  ⟨A, operatorAssign_eq (WF_of_reachable hB) (WF_of_reachable hA), rfl, rfl, rfl,
    fun _ _ => rfl, fun _ => rfl, rfl⟩

/-- Witness of C7: the source is the table of width 1 and default tag `some 7` after
`setCompareCharacter 0 5`, the destination a table of width 2 and null default tag after
`getCharacterType 3`. -/
theorem deep_copy_witness :
    ∃ B1,
      operatorAssign false
        { m_defaultCharacterType := none
          m_data := some [[CharacterTypeTraits.ctor, CharacterTypeTraits.ctor],
            [CharacterTypeTraits.ctor,
              { m_characterTypePtr := none, m_compareValue := 3
                m_caseInsensetiveCompareValue := 3 }]]
          i_size := 2, j_size := 2 }
        { m_defaultCharacterType := some 7
          m_data := some [[{ m_characterTypePtr := some 7, m_compareValue := 5
                             m_caseInsensetiveCompareValue := 0 }]]
          i_size := 1, j_size := 1 } = some B1 ∧
      B1.i_size = 1 ∧ B1.j_size = 1 ∧ B1.m_defaultCharacterType = some 7 ∧
      (∀ i j, readCell B1 i j =
        readCell
          { m_defaultCharacterType := some 7
            m_data := some [[{ m_characterTypePtr := some 7, m_compareValue := 5
                               m_caseInsensetiveCompareValue := 0 }]]
            i_size := 1, j_size := 1 } i j) ∧
      (∀ c, observe B1 c =
        observe
          { m_defaultCharacterType := some 7
            m_data := some [[{ m_characterTypePtr := some 7, m_compareValue := 5
                               m_caseInsensetiveCompareValue := 0 }]]
            i_size := 1, j_size := 1 } c) ∧
      B1 =
        { m_defaultCharacterType := some 7
          m_data := some [[{ m_characterTypePtr := some 7, m_compareValue := 5
                             m_caseInsensetiveCompareValue := 0 }]]
          i_size := 1, j_size := 1 } :=
  deep_copy _ _
    (Reachable.call (Op.setCompareCharacter 0 5) _ _
      (Reachable.construct (some 7) 1 _ rfl) (by decide))
    (Reachable.call (Op.getCharacterType 3) _ _
      (Reachable.construct none 2 _ rfl) (by decide))

/-- Counterexample to C8 as stated: the destination is freshly constructed with a
null default tag and width 2, the source is the table of width 1 and default tag `some 7`
after `setCompareCharacter 0 5`. The fresh destination holds a non-null (empty) row
array, and the assignment replaces it by the source instead of leaving it as
constructed. -/
theorem fresh_destination_is_overwritten :
    construct none 2
      = some { m_defaultCharacterType := none, m_data := some [], i_size := 0, j_size := 2 } ∧
    ((construct (some 7) 1).bind fun a => setCompareCharacter a 0 5)
      = some { m_defaultCharacterType := some 7
               m_data := some [[{ m_characterTypePtr := some 7, m_compareValue := 5
                                  m_caseInsensetiveCompareValue := 0 }]]
               i_size := 1, j_size := 1 } ∧
    operatorAssign false
        { m_defaultCharacterType := none, m_data := some [], i_size := 0, j_size := 2 }
        { m_defaultCharacterType := some 7
          m_data := some [[{ m_characterTypePtr := some 7, m_compareValue := 5
                             m_caseInsensetiveCompareValue := 0 }]]
          i_size := 1, j_size := 1 }
      = some { m_defaultCharacterType := some 7
               m_data := some [[{ m_characterTypePtr := some 7, m_compareValue := 5
                                  m_caseInsensetiveCompareValue := 0 }]]
               i_size := 1, j_size := 1 } ∧
    operatorAssign false
        { m_defaultCharacterType := none, m_data := some [], i_size := 0, j_size := 2 }
        { m_defaultCharacterType := some 7
          m_data := some [[{ m_characterTypePtr := some 7, m_compareValue := 5
                             m_caseInsensetiveCompareValue := 0 }]]
          i_size := 1, j_size := 1 }
      ≠ some { m_defaultCharacterType := none, m_data := some [], i_size := 0
               j_size := 2 } := by
  decide

/-- C8, amended (assignment into a fresh destination). A freshly constructed table has
row count 0 and owns a non-null row array of length 0, allocated by `_reallocate(0)` in
the constructor; so `operator=` into a fresh destination takes the copy branch like any
other assignment, and the destination becomes equal to the source (row count,
width, default tag and cells), whatever reachable table the source is. -/
theorem assign_into_fresh (D : CharacterTypePtr) (w : Nat) (A : CharacterTypeSetData)
    (hA : Reachable A) :
    ∃ B, construct D w = some B ∧ B.i_size = 0 ∧ B.m_data = some [] ∧
      operatorAssign false B A = some A :=
  ⟨_, construct_eq D w, rfl, rfl,
    operatorAssign_eq (WF_construct (construct_eq D w)) (WF_of_reachable hA)⟩

/-- Witness of C8: a destination constructed with null default tag and width 2, the
source the table of width 1 and default tag `some 7` after `setCompareCharacter 0 5`. -/
theorem assign_into_fresh_witness :
    ∃ B, construct none 2 = some B ∧ B.i_size = 0 ∧ B.m_data = some [] ∧
      operatorAssign false B
        { m_defaultCharacterType := some 7
          m_data := some [[{ m_characterTypePtr := some 7, m_compareValue := 5
                             m_caseInsensetiveCompareValue := 0 }]]
          i_size := 1, j_size := 1 }
      = some { m_defaultCharacterType := some 7
               m_data := some [[{ m_characterTypePtr := some 7, m_compareValue := 5
                                  m_caseInsensetiveCompareValue := 0 }]]
               i_size := 1, j_size := 1 } :=
  assign_into_fresh none 2 _
    (Reachable.call (Op.setCompareCharacter 0 5) _ _
      (Reachable.construct (some 7) 1 _ rfl) (by decide))

/-! ## Width zero and bounds of the accesses -/

/-- Counterexample to C9 as stated: the constructor called with inner dimension 0 does
not fail; it returns a table of width 0 with no rows. -/
theorem zero_width_constructs_a_table :
    construct none 0
      = some { m_defaultCharacterType := none, m_data := some [], i_size := 0, j_size := 0 } := by
  decide

/-- C9, amended (zero width). The constructor does not check its arguments: called with
inner dimension 0 it returns a table of width 0 and row count 0, so tables of width 0
exist; on such a table `touchElement` and all six get and set methods divide by zero in
`get_i` at every code point, which is undefined behaviour (`none`). -/
theorem construct_zero_width (D : CharacterTypePtr) :
    ∃ t, construct D 0 = some t ∧ Reachable t ∧ t.j_size = 0 ∧ t.i_size = 0 ∧
      ∀ (c : Nat) (T : CharacterTypePtr) (v : Nat),
        get_i t c = none ∧ touchElement t c = none ∧
        getCharacterType t c = none ∧ getCompareCharacter t c = none ∧
        getCompareCharacterInsensetive t c = none ∧
        setCharacterType t c T = none ∧ setCompareCharacter t c v = none ∧
        setCompareCharacterInsensetive t c v = none := by
  refine ⟨_, construct_eq D 0, Reachable.construct D 0 _ (construct_eq D 0), rfl, rfl, ?_⟩
  intro c T v
  simp [getCharacterType, getCompareCharacter, getCompareCharacterInsensetive,
    setCharacterType, setCompareCharacter, setCompareCharacterInsensetive, touchElement, get_i]

/-- On the methods with a natural number as code point: every reachable table of
positive width is an array of `i_size` rows of `j_size` cells; for every code point `c`
the touch succeeds with coordinates `(c / j_size, c % j_size)` that lie inside the row
count after the growth step and inside the width, the cell at the coordinates exists in
the touched table, which is again such an array, and all six get and set methods
return a result. -/
theorem access_in_bounds_nat (t : CharacterTypeSetData) (h : Reachable t) (hw : 0 < t.j_size)
    (c : Nat) (T : CharacterTypePtr) (v : Nat) :
    (∃ rows, t.m_data = some rows ∧ rows.length = t.i_size ∧
      ∀ row ∈ rows, row.length = t.j_size) ∧
    (∃ t1 coord, touchElement t c = some (t1, coord) ∧
      coord.i = c / t.j_size ∧ coord.j = c % t.j_size ∧
      coord.i < t1.i_size ∧ coord.j < t1.j_size ∧
      (∃ rows1, t1.m_data = some rows1 ∧ rows1.length = t1.i_size ∧
        ∀ row ∈ rows1, row.length = t1.j_size) ∧
      (readCell t1 coord.i coord.j).isSome = true) ∧
    (getCharacterType t c).isSome = true ∧ (getCompareCharacter t c).isSome = true ∧
    (getCompareCharacterInsensetive t c).isSome = true ∧
    (setCharacterType t c T).isSome = true ∧ (setCompareCharacter t c v).isSome = true ∧
    (setCompareCharacterInsensetive t c v).isSome = true := by
  have hwf := WF_of_reachable h
  have hrows : ∀ {u : CharacterTypeSetData}, WF u →
      ∃ rows, u.m_data = some rows ∧ rows.length = u.i_size ∧
        ∀ row ∈ rows, row.length = u.j_size := by
    rintro u ⟨rows, hd, hl, hr⟩
    refine ⟨rows, hd, hl, ?_⟩
    intro row hrow
    obtain ⟨k, hk, rfl⟩ := List.getElem_of_mem hrow
    exact hr k _ (List.getElem?_eq_getElem hk)
  obtain ⟨t1, ht, hs⟩ := touchElement_spec hwf hw c
  obtain ⟨_, h1, _⟩ := getCharacterType_spec hwf hw c
  obtain ⟨_, h2, _⟩ := getCompareCharacter_spec hwf hw c
  obtain ⟨_, h3, _⟩ := getCompareCharacterInsensetive_spec hwf hw c
  obtain ⟨_, h4, _⟩ := setCharacterType_spec hwf hw c T
  obtain ⟨_, h5, _⟩ := setCompareCharacter_spec hwf hw c v
  obtain ⟨_, h6, _⟩ := setCompareCharacterInsensetive_spec hwf hw c v
  refine ⟨hrows hwf, ⟨t1, _, ht, rfl, rfl, ?_, ?_, hrows hs.wf, by simp [hs.self]⟩,
    by simp [h1], by simp [h2], by simp [h3], by simp [h4], by simp [h5], by simp [h6]⟩
  · have := hs.rowCount
    show c / t.j_size < t1.i_size
    omega
  · show c % t.j_size < t1.j_size
    rw [hs.width]
    exact Nat.mod_lt _ hw

theorem wcharToSize_of_nonneg {c : Int} (h0 : 0 ≤ c) (h1 : c < 2 ^ 31) :
    wcharToSize c = c.toNat := by
  unfold wcharToSize
  rw [Int.emod_eq_of_lt h0 (by norm_num at h1 ⊢; omega)]

theorem wcharBits_of_nonneg {c : Int} (h0 : 0 ≤ c) (h1 : c < 2 ^ 31) :
    wcharBits c = c.toNat := by
  unfold wcharBits
  rw [Int.emod_eq_of_lt h0 (by norm_num at h1 ⊢; omega)]

theorem createDefault_wchar_eq {t : CharacterTypeSetData} {i j : Nat} {c : Int}
    (h0 : 0 ≤ c) (h1 : c < 2 ^ 31) (hi : i + 1 < 2 ^ 64) :
    createDefaultCharacterTypeInPosition_wchar t i j c
      = createDefaultCharacterTypeInPosition t i j c.toNat := by
  unfold createDefaultCharacterTypeInPosition_wchar createDefaultCharacterTypeInPosition
  rw [wcharBits_of_nonneg h0 h1, Nat.mod_eq_of_lt hi]

/-- For a non-negative `wchar_t` the touch on machine integers is the touch at the
natural number. -/
theorem touchElement_wchar_eq {t : CharacterTypeSetData} {c : Int} (h0 : 0 ≤ c)
    (h1 : c < 2 ^ 31) : touchElement_wchar t c = touchElement t c.toNat := by
  unfold touchElement_wchar touchElement
  rw [wcharToSize_of_nonneg h0 h1, wcharBits_of_nonneg h0 h1]
  by_cases hw : t.j_size = 0
  · simp [get_i, hw]
  · have hc : c.toNat < 2 ^ 31 := by
      norm_num at h1 ⊢
      omega
    have hle : c.toNat / t.j_size ≤ c.toNat := Nat.div_le_self _ _
    have hi : c.toNat / t.j_size + 1 < 2 ^ 64 := by
      norm_num at hc ⊢
      omega
    simp [get_i, get_j, hw, createDefault_wchar_eq h0 h1 hi]

/-- Counterexample to C10 as stated: the table of width 1 and default tag `some 7` after
`setCompareCharacter 0 5` is reachable and has one row. A call with the `wchar_t`
argument -1 casts it to `2 ^ 64 - 1`, so `i` is `2 ^ 64 - 1` and `j` is 0; `i + 1` wraps
to 0, `_reallocate(0)` leaves an array of no rows, and the access `m_data[i][j]` is out
of bounds: `touchElement` and all six get and set methods are undefined. -/
theorem negative_wchar_access_out_of_bounds :
    Reachable
      { m_defaultCharacterType := some 7
        m_data := some [[{ m_characterTypePtr := some 7, m_compareValue := 5
                           m_caseInsensetiveCompareValue := 0 }]]
        i_size := 1, j_size := 1 } ∧
    wcharToSize (-1) = 2 ^ 64 - 1 ∧
    _reallocate
        { m_defaultCharacterType := some 7
          m_data := some [[{ m_characterTypePtr := some 7, m_compareValue := 5
                             m_caseInsensetiveCompareValue := 0 }]]
          i_size := 1, j_size := 1 } ((2 ^ 64 - 1 + 1) % 2 ^ 64)
      = some { m_defaultCharacterType := some 7, m_data := some [], i_size := 0
               j_size := 1 } ∧
    readCell { m_defaultCharacterType := some 7, m_data := some [], i_size := 0, j_size := 1 }
      (2 ^ 64 - 1) 0 = none ∧
    touchElement_wchar
        { m_defaultCharacterType := some 7
          m_data := some [[{ m_characterTypePtr := some 7, m_compareValue := 5
                             m_caseInsensetiveCompareValue := 0 }]]
          i_size := 1, j_size := 1 } (-1) = none ∧
    getCharacterType_wchar
        { m_defaultCharacterType := some 7
          m_data := some [[{ m_characterTypePtr := some 7, m_compareValue := 5
                             m_caseInsensetiveCompareValue := 0 }]]
          i_size := 1, j_size := 1 } (-1) = none ∧
    setCompareCharacter_wchar
        { m_defaultCharacterType := some 7
          m_data := some [[{ m_characterTypePtr := some 7, m_compareValue := 5
                             m_caseInsensetiveCompareValue := 0 }]]
          i_size := 1, j_size := 1 } (-1) 9 = none :=
  ⟨Reachable.call (Op.setCompareCharacter 0 5) _ _
      (Reachable.construct (some 7) 1 _ rfl) (by decide),
    by decide, by decide, by decide, by decide, by decide, by decide⟩

/-- C10, amended (no access can fail for a non-negative argument). On a platform with a
signed 32-bit `wchar_t` and a 64-bit `size_t`: every reachable table of positive width
is an array of `i_size` rows of `j_size` cells, and for every `wchar_t` argument `c`
with `0 ≤ c` the coordinates `(i, j)` that `touchElement` computes, in machine
arithmetic, satisfy `i < i_size` after the growth step and `j < j_size`; the cell at the
coordinates exists in the touched table, which is again such an array, and all six get
and set methods return a result. -/
theorem access_in_bounds_wchar (t : CharacterTypeSetData) (h : Reachable t)
    (hw : 0 < t.j_size) (c : Int) (hc0 : 0 ≤ c) (hc1 : c < 2 ^ 31)
    (T : CharacterTypePtr) (v : Int) :
    (∃ rows, t.m_data = some rows ∧ rows.length = t.i_size ∧
      ∀ row ∈ rows, row.length = t.j_size) ∧
    (∃ t1 coord, touchElement_wchar t c = some (t1, coord) ∧
      coord.i = wcharToSize c / t.j_size ∧ coord.j = wcharToSize c % t.j_size ∧
      coord.i < t1.i_size ∧ coord.j < t1.j_size ∧
      (∃ rows1, t1.m_data = some rows1 ∧ rows1.length = t1.i_size ∧
        ∀ row ∈ rows1, row.length = t1.j_size) ∧
      (readCell t1 coord.i coord.j).isSome = true) ∧
    (getCharacterType_wchar t c).isSome = true ∧
    (getCompareCharacter_wchar t c).isSome = true ∧
    (getCompareCharacterInsensetive_wchar t c).isSome = true ∧
    (setCharacterType_wchar t c T).isSome = true ∧
    (setCompareCharacter_wchar t c v).isSome = true ∧
    (setCompareCharacterInsensetive_wchar t c v).isSome = true := by
  have he := touchElement_wchar_eq (t := t) hc0 hc1
  have hs := wcharToSize_of_nonneg hc0 hc1
  obtain ⟨hrows, htouch, g1, g2, g3, s1, s2, s3⟩ :=
    access_in_bounds_nat t h hw c.toNat T (wcharBits v)
  refine ⟨hrows, ?_, ?_, ?_, ?_, ?_, ?_, ?_⟩
  · rw [he, hs]
    exact htouch
  · simpa [getCharacterType_wchar, getCharacterType, he] using g1
  · simpa [getCompareCharacter_wchar, getCompareCharacter, he] using g2
  · simpa [getCompareCharacterInsensetive_wchar, getCompareCharacterInsensetive, he] using g3
  · simpa [setCharacterType_wchar, setCharacterType, he] using s1
  · simpa [setCompareCharacter_wchar, setCompareCharacter, he] using s2
  · simpa [setCompareCharacterInsensetive_wchar, setCompareCharacterInsensetive, he] using s3

/-- Witness of C10: the table constructed with default tag `some 7` and width 2, the
argument 5, the tag `some 9` and the value -8. -/
theorem access_in_bounds_wchar_witness :
    (∃ rows, (some [] : Option (List (List CharacterTypeTraits))) = some rows ∧
      rows.length = 0 ∧ ∀ row ∈ rows, row.length = 2) ∧
    (∃ t1 coord,
      touchElement_wchar
        { m_defaultCharacterType := some 7, m_data := some [], i_size := 0, j_size := 2 }
        5 = some (t1, coord) ∧
      coord.i = wcharToSize 5 / 2 ∧ coord.j = wcharToSize 5 % 2 ∧
      coord.i < t1.i_size ∧ coord.j < t1.j_size ∧
      (∃ rows1, t1.m_data = some rows1 ∧ rows1.length = t1.i_size ∧
        ∀ row ∈ rows1, row.length = t1.j_size) ∧
      (readCell t1 coord.i coord.j).isSome = true) ∧
    (getCharacterType_wchar
      { m_defaultCharacterType := some 7, m_data := some [], i_size := 0, j_size := 2 }
      5).isSome = true ∧
    (getCompareCharacter_wchar
      { m_defaultCharacterType := some 7, m_data := some [], i_size := 0, j_size := 2 }
      5).isSome = true ∧
    (getCompareCharacterInsensetive_wchar
      { m_defaultCharacterType := some 7, m_data := some [], i_size := 0, j_size := 2 }
      5).isSome = true ∧
    (setCharacterType_wchar
      { m_defaultCharacterType := some 7, m_data := some [], i_size := 0, j_size := 2 }
      5 (some 9)).isSome = true ∧
    (setCompareCharacter_wchar
      { m_defaultCharacterType := some 7, m_data := some [], i_size := 0, j_size := 2 }
      5 (-8)).isSome = true ∧
    (setCompareCharacterInsensetive_wchar
      { m_defaultCharacterType := some 7, m_data := some [], i_size := 0, j_size := 2 }
      5 (-8)).isSome = true :=
  access_in_bounds_wchar
    { m_defaultCharacterType := some 7, m_data := some [], i_size := 0, j_size := 2 }
    (Reachable.construct (some 7) 2 _ rfl) (by decide) 5 (by decide) (by decide)
    (some 9) (-8)

/-! ## Idempotent reads and the decomposition of a code point -/

/-- A sequence of get calls keeps the effective traits of every code point. -/
theorem runOps_gets_effective {t : CharacterTypeSetData} (h : WF t) (hw : 0 < t.j_size)
    {gets : List Op} (hg : ∀ op ∈ gets, op.isSet = false) :
    ∃ t1, runOps t gets = some t1 ∧ WF t1 ∧ 0 < t1.j_size ∧
      ∀ c, effective t1 c = effective t c := by
  obtain ⟨t1, hr, hwf1, hj, _, _, _, _, heff⟩ := runOps_spec h hw gets
  refine ⟨t1, hr, hwf1, by rw [hj]; exact hw, fun c => heff c ?_⟩
  intro op hop hset
  rw [hg op hop] at hset
  cases hset

/-- C11 (reads are idempotent). For every reachable table of width > 0 and every code
point `c`, touched before or not: each of the three get methods called at `c` returns a
value, and the same method called at `c` again, directly afterwards (`gets` empty) or
after any sequence `gets` of get calls at any code points, returns the same value. -/
theorem reads_idempotent (t : CharacterTypeSetData) (h : Reachable t) (hw : 0 < t.j_size)
    (c : Nat) (gets : List Op) (hg : ∀ op ∈ gets, op.isSet = false) :
    ∃ ta ra ta2 tb rb tb2 td rd td2,
      getCharacterType t c = some (ta, ra) ∧ runOps ta gets = some ta2 ∧
      (getCharacterType ta2 c).map Prod.snd = some ra ∧
      getCompareCharacter t c = some (tb, rb) ∧ runOps tb gets = some tb2 ∧
      (getCompareCharacter tb2 c).map Prod.snd = some rb ∧
      getCompareCharacterInsensetive t c = some (td, rd) ∧ runOps td gets = some td2 ∧
      (getCompareCharacterInsensetive td2 c).map Prod.snd = some rd := by
  have hwf := WF_of_reachable h
  have key : ∀ t1, CellSpec t t1 c (effective t c) →
      ∃ t2, runOps t1 gets = some t2 ∧ WF t2 ∧ 0 < t2.j_size ∧
        effective t2 c = effective t c := by
    intro t1 hs
    obtain ⟨t2, hr, hwf2, hw2, heff⟩ := runOps_gets_effective hs.wf (hs.width_pos hw) hg
    exact ⟨t2, hr, hwf2, hw2, by rw [heff c, hs.effective_self, normalize_effective]⟩
  obtain ⟨ta, ha, hca⟩ := getCharacterType_spec hwf hw c
  obtain ⟨ta2, hra, hwa, hpa, hea⟩ := key ta hca
  obtain ⟨_, ha2, _⟩ := getCharacterType_spec hwa hpa c
  obtain ⟨tb, hb, hcb⟩ := getCompareCharacter_spec hwf hw c
  obtain ⟨tb2, hrb, hwb, hpb, heb⟩ := key tb hcb
  obtain ⟨_, hb2, _⟩ := getCompareCharacter_spec hwb hpb c
  obtain ⟨td, hd, hcd⟩ := getCompareCharacterInsensetive_spec hwf hw c
  obtain ⟨td2, hrd, hwd, hpd, hed⟩ := key td hcd
  obtain ⟨_, hd2, _⟩ := getCompareCharacterInsensetive_spec hwd hpd c
  exact ⟨ta, _, ta2, tb, _, tb2, td, _, td2, ha, hra, by simp [ha2, hea], hb, hrb,
    by simp [hb2, heb], hd, hrd, by simp [hd2, hed]⟩

/-- Witness of C11: the table constructed with default tag `some 7` and width 2, code
point 5, with two get calls at other code points in between. -/
theorem reads_idempotent_witness :
    ∃ ta ra ta2 tb rb tb2 td rd td2,
      getCharacterType
        { m_defaultCharacterType := some 7, m_data := some [], i_size := 0, j_size := 2 }
        5 = some (ta, ra) ∧
      runOps ta [Op.getCompareCharacter 9, Op.getCharacterType 0] = some ta2 ∧
      (getCharacterType ta2 5).map Prod.snd = some ra ∧
      getCompareCharacter
        { m_defaultCharacterType := some 7, m_data := some [], i_size := 0, j_size := 2 }
        5 = some (tb, rb) ∧
      runOps tb [Op.getCompareCharacter 9, Op.getCharacterType 0] = some tb2 ∧
      (getCompareCharacter tb2 5).map Prod.snd = some rb ∧
      getCompareCharacterInsensetive
        { m_defaultCharacterType := some 7, m_data := some [], i_size := 0, j_size := 2 }
        5 = some (td, rd) ∧
      runOps td [Op.getCompareCharacter 9, Op.getCharacterType 0] = some td2 ∧
      (getCompareCharacterInsensetive td2 5).map Prod.snd = some rd :=
  reads_idempotent _ (Reachable.construct (some 7) 2 _ rfl) (by decide) 5 _ (by decide)

/-- C14 (row/column decomposition). For every table of width `w > 0` and code point `c`:
`get_i c` is `c / w` and `get_j c` is `c % w`, with `get_j c < w` and
`get_i c * w + get_j c = c`; two code points with the same pair are equal; the pair is
the same on every table of the same width, whatever its row count; and on a reachable
table the touch returns this pair both before and after the growth it causes. -/
theorem decomposition_bijective (t : CharacterTypeSetData) (hw : 0 < t.j_size) :
    (∀ c, get_i t c = some (c / t.j_size) ∧ get_j t c = some (c % t.j_size) ∧
      c % t.j_size < t.j_size ∧ (c / t.j_size) * t.j_size + c % t.j_size = c) ∧
    (∀ c1 c2, get_i t c1 = get_i t c2 → get_j t c1 = get_j t c2 → c1 = c2) ∧
    (∀ (t1 : CharacterTypeSetData) (c : Nat), t1.j_size = t.j_size →
      get_i t1 c = get_i t c ∧ get_j t1 c = get_j t c) ∧
    (∀ c, Reachable t → ∃ t1 t2,
      touchElement t c = some (t1, { i := c / t.j_size, j := c % t.j_size }) ∧
      touchElement t1 c = some (t2, { i := c / t.j_size, j := c % t.j_size })) := by
  have hw0 : t.j_size ≠ 0 := by omega
  refine ⟨?_, ?_, ?_, ?_⟩
  · intro c
    refine ⟨by simp [get_i, hw0], by simp [get_j, hw0], Nat.mod_lt _ hw, ?_⟩
    rw [Nat.mul_comm]
    exact Nat.div_add_mod c t.j_size
  · intro c1 c2 hi hj
    simp only [get_i, get_j, hw0, if_false, Option.some.injEq] at hi hj
    by_contra hne
    rcases coords_ne (w := t.j_size) hne with h1 | h1
    · exact h1 hi
    · exact h1 hj
  · intro t1 c hj
    simp [get_i, get_j, hj]
  · intro c h
    obtain ⟨t1, ht1, hs⟩ := touchElement_spec (WF_of_reachable h) hw c
    obtain ⟨t2, ht2, _⟩ := touchElement_spec hs.wf (hs.width_pos hw) c
    rw [hs.width] at ht2
    exact ⟨t1, t2, ht1, ht2⟩

/-- Witness of C14: the table constructed with default tag `some 7` and width 2, code
point 5. -/
theorem decomposition_bijective_witness :
    get_i
        { m_defaultCharacterType := some 7, m_data := some [], i_size := 0, j_size := 2 }
        5 = some (5 / 2) ∧
      get_j
        { m_defaultCharacterType := some 7, m_data := some [], i_size := 0, j_size := 2 }
        5 = some (5 % 2) ∧
      5 % 2 < 2 ∧ (5 / 2) * 2 + 5 % 2 = 5 :=
  (decomposition_bijective
    { m_defaultCharacterType := some 7, m_data := some [], i_size := 0, j_size := 2 }
    (by decide)).1 5

/-! ## The growth step and the rows it appends -/

/-- C15 (growth only extends). For every reachable table with `n` rows and every
`n1 ≥ n`, `_reallocate n1` succeeds and yields a table with exactly `n1` rows whose first
`n` rows are the old rows, so every old cell reads as before; width and default tag are
unchanged. -/
theorem reallocate_extends (t : CharacterTypeSetData) (h : Reachable t) (n1 : Nat)
    (hn : t.i_size ≤ n1) :
    ∃ rows t1 rows1, t.m_data = some rows ∧ rows.length = t.i_size ∧
      _reallocate t n1 = some t1 ∧ t1.i_size = n1 ∧
      t1.m_data = some rows1 ∧ rows1.length = n1 ∧ rows1.take t.i_size = rows ∧
      (∀ i j, i < t.i_size → readCell t1 i j = readCell t i j) ∧
      t1.j_size = t.j_size ∧ t1.m_defaultCharacterType = t.m_defaultCharacterType := by
  obtain ⟨rows, hd, hl, hr⟩ := WF_of_reachable h
  have hloop := reallocateLoop_eq hd hl n1
  have htake : rows.take n1 = rows := List.take_of_length_le (by omega)
  rw [htake] at hloop
  refine ⟨rows, { t with i_size := n1
                         m_data := some (rows ++ List.replicate (n1 - t.i_size)
                           (newRow t.j_size)) }, _, hd, hl,
    by simp [_reallocate, hloop], rfl, rfl, by simp; omega, ?_, ?_, rfl, rfl⟩
  · rw [← hl]
    exact List.take_left' rfl
  · intro i j hi
    have hi1 : i < rows.length := by omega
    simp [readCell, hd, List.getElem?_append_left hi1]

/-- Witness of C15: the table of width 2 and default tag `some 7` after
`setCompareCharacter 1 5`, which has one row, grown to three rows. -/
theorem reallocate_extends_witness :
    ∃ rows t1 rows1,
      (some [[CharacterTypeTraits.ctor,
          { m_characterTypePtr := some 7, m_compareValue := 5
            m_caseInsensetiveCompareValue := 1 }]] :
        Option (List (List CharacterTypeTraits))) = some rows ∧
      rows.length = 1 ∧
      _reallocate
        { m_defaultCharacterType := some 7
          m_data := some [[CharacterTypeTraits.ctor,
            { m_characterTypePtr := some 7, m_compareValue := 5
              m_caseInsensetiveCompareValue := 1 }]]
          i_size := 1, j_size := 2 } 3 = some t1 ∧
      t1.i_size = 3 ∧ t1.m_data = some rows1 ∧ rows1.length = 3 ∧ rows1.take 1 = rows ∧
      (∀ i j, i < 1 → readCell t1 i j =
        readCell
          { m_defaultCharacterType := some 7
            m_data := some [[CharacterTypeTraits.ctor,
              { m_characterTypePtr := some 7, m_compareValue := 5
                m_caseInsensetiveCompareValue := 1 }]]
            i_size := 1, j_size := 2 } i j) ∧
      t1.j_size = 2 ∧ t1.m_defaultCharacterType = some 7 :=
  reallocate_extends
    { m_defaultCharacterType := some 7
      m_data := some [[CharacterTypeTraits.ctor,
        { m_characterTypePtr := some 7, m_compareValue := 5
          m_caseInsensetiveCompareValue := 1 }]]
      i_size := 1, j_size := 2 }
    (Reachable.call (Op.setCompareCharacter 1 5) _ _
      (Reachable.construct (some 7) 2 _ rfl) (by decide)) 3 (by decide)

/-- Counterexample to C16 as stated: on the fresh table of width 2 and default tag
`some 7` the touch at code point 3 appends two rows; the cell at row 0, column 0 of the
new rows holds the null tag, not the default tag `some 7`. -/
theorem new_row_cells_hold_null_tag :
    touchElement
        { m_defaultCharacterType := some 7, m_data := some [], i_size := 0, j_size := 2 } 3
      = some ({ m_defaultCharacterType := some 7
                m_data := some [[CharacterTypeTraits.ctor, CharacterTypeTraits.ctor],
                  [CharacterTypeTraits.ctor,
                    { m_characterTypePtr := some 7, m_compareValue := 3
                      m_caseInsensetiveCompareValue := 3 }]]
                i_size := 2, j_size := 2 }, { i := 1, j := 1 }) ∧
    readCell
        { m_defaultCharacterType := some 7
          m_data := some [[CharacterTypeTraits.ctor, CharacterTypeTraits.ctor],
            [CharacterTypeTraits.ctor,
              { m_characterTypePtr := some 7, m_compareValue := 3
                m_caseInsensetiveCompareValue := 3 }]]
          i_size := 2, j_size := 2 } 0 0
      = some { m_characterTypePtr := none, m_compareValue := 0
               m_caseInsensetiveCompareValue := 0 } ∧
    (none : CharacterTypePtr) ≠ some 7 := by
  decide

/-- C16, amended (contents of newly appended rows). When a touch at code point `c` grows
a reachable table of width > 0, the table gets `c / width + 1` rows, every newly
appended row has exactly `width` cells, and every cell of those rows other than the
touched cell holds the null tag reference (the default-constructed cell, not the tag
that is the default of the table) and 0 as both compare values; the touched cell holds
the default tag of the table and `c` as both compare values. -/
theorem new_rows_contents (t : CharacterTypeSetData) (h : Reachable t) (hw : 0 < t.j_size)
    (c : Nat) (hgrow : t.i_size ≤ c / t.j_size) :
    ∃ t1 rows1,
      touchElement t c = some (t1, { i := c / t.j_size, j := c % t.j_size }) ∧
      t1.m_data = some rows1 ∧ t1.i_size = c / t.j_size + 1 ∧
      rows1.length = c / t.j_size + 1 ∧
      (∀ i, t.i_size ≤ i → i < t1.i_size →
        ∃ row, rows1[i]? = some row ∧ row.length = t.j_size) ∧
      (∀ i j, t.i_size ≤ i → i < t1.i_size → j < t.j_size →
        (i ≠ c / t.j_size ∨ j ≠ c % t.j_size) →
        readCell t1 i j = some { m_characterTypePtr := none, m_compareValue := 0
                                 m_caseInsensetiveCompareValue := 0 }) ∧
      readCell t1 (c / t.j_size) (c % t.j_size)
        = some { m_characterTypePtr := t.m_defaultCharacterType, m_compareValue := c
                 m_caseInsensetiveCompareValue := c } := by
  have hwf := WF_of_reachable h
  obtain ⟨t1, ht, hs⟩ := touchElement_spec hwf hw c
  obtain ⟨rows1, hd1, hl1, hr1⟩ := hs.wf
  have hcount : t1.i_size = c / t.j_size + 1 := by
    have := hs.rowCount
    omega
  have heff : effective t c =
      { m_characterTypePtr := t.m_defaultCharacterType, m_compareValue := c
        m_caseInsensetiveCompareValue := c } := by
    simp [effective, readCell_eq_none_of_le hwf _ hgrow]
  refine ⟨t1, rows1, ht, hd1, hcount, by rw [hl1, hcount], ?_, ?_, ?_⟩
  · intro i _ hi
    have h1 : rows1[i]? = some rows1[i] := List.getElem?_eq_getElem (by omega)
    exact ⟨_, h1, by rw [hr1 i _ h1, hs.width]⟩
  · intro i j hle hlt hj hne
    exact hs.fresh i j hle hlt hj hne
  · rw [hs.self, heff]

/-- Witness of C16: the fresh table of width 2 and default tag `some 7`, touched at
code point 3. -/
theorem new_rows_contents_witness :
    ∃ t1 rows1,
      touchElement
        { m_defaultCharacterType := some 7, m_data := some [], i_size := 0, j_size := 2 } 3
        = some (t1, { i := 3 / 2, j := 3 % 2 }) ∧
      t1.m_data = some rows1 ∧ t1.i_size = 3 / 2 + 1 ∧ rows1.length = 3 / 2 + 1 ∧
      (∀ i, 0 ≤ i → i < t1.i_size → ∃ row, rows1[i]? = some row ∧ row.length = 2) ∧
      (∀ i j, 0 ≤ i → i < t1.i_size → j < 2 → (i ≠ 3 / 2 ∨ j ≠ 3 % 2) →
        readCell t1 i j = some { m_characterTypePtr := none, m_compareValue := 0
                                 m_caseInsensetiveCompareValue := 0 }) ∧
      readCell t1 (3 / 2) (3 % 2)
        = some { m_characterTypePtr := some 7, m_compareValue := 3
                 m_caseInsensetiveCompareValue := 3 } :=
  new_rows_contents _ (Reachable.construct (some 7) 2 _ rfl) (by decide) 3 (by decide)

/-! ## The null tag as the mark of an unset cell -/

/-- C18 (a null tag resets the cell on the next access). On a reachable table of width
> 0 with default tag `D`, if the cell of code point `c` is allocated and stores a null
tag, then the touch at `c` overwrites the cell with `(D, c, c)`; so the three get methods
return `D`, `c` and `c`, and each set method leaves `(D, c, c)` with only its own field
replaced, whatever compare values the cell stored before. Also, on every reachable table
of width > 0, `setCharacterType c nullptr` leaves a null tag in the cell of `c`, and
after `setCompareCharacter c v` followed by `setCharacterType c nullptr` the method
`getCompareCharacter c` returns `c` and `getCharacterType c` returns `D`. -/
theorem null_tag_resets :
    (∀ (t : CharacterTypeSetData) (c : Nat) (x : CharacterTypeTraits)
        (T : CharacterTypePtr) (v : Nat),
      Reachable t → 0 < t.j_size →
      readCell t (c / t.j_size) (c % t.j_size) = some x → x.m_characterTypePtr = none →
      (∃ t1 co, touchElement t c = some (t1, co) ∧
        readCell t1 co.i co.j
          = some { m_characterTypePtr := t.m_defaultCharacterType, m_compareValue := c
                   m_caseInsensetiveCompareValue := c }) ∧
      (getCharacterType t c).map Prod.snd = some t.m_defaultCharacterType ∧
      (getCompareCharacter t c).map Prod.snd = some c ∧
      (getCompareCharacterInsensetive t c).map Prod.snd = some c ∧
      (∃ t1, setCharacterType t c T = some t1 ∧
        readCell t1 (c / t.j_size) (c % t.j_size)
          = some { m_characterTypePtr := T, m_compareValue := c
                   m_caseInsensetiveCompareValue := c }) ∧
      (∃ t1, setCompareCharacter t c v = some t1 ∧
        readCell t1 (c / t.j_size) (c % t.j_size)
          = some { m_characterTypePtr := t.m_defaultCharacterType, m_compareValue := v
                   m_caseInsensetiveCompareValue := c }) ∧
      (∃ t1, setCompareCharacterInsensetive t c v = some t1 ∧
        readCell t1 (c / t.j_size) (c % t.j_size)
          = some { m_characterTypePtr := t.m_defaultCharacterType, m_compareValue := c
                   m_caseInsensetiveCompareValue := v })) ∧
    (∀ (t : CharacterTypeSetData) (c v : Nat), Reachable t → 0 < t.j_size →
      ∃ t1 t2 x,
        setCompareCharacter t c v = some t1 ∧ setCharacterType t1 c none = some t2 ∧
        readCell t2 (c / t.j_size) (c % t.j_size) = some x ∧ x.m_characterTypePtr = none ∧
        (getCompareCharacter t2 c).map Prod.snd = some c ∧
        (getCharacterType t2 c).map Prod.snd = some t.m_defaultCharacterType) := by
  constructor
  · intro t c x T v h hw hx hnull
    have hwf := WF_of_reachable h
    have heff : effective t c =
        { m_characterTypePtr := t.m_defaultCharacterType, m_compareValue := c
          m_caseInsensetiveCompareValue := c } := by
      simp [effective, hx, normalize, hnull]
    obtain ⟨t0, ht0, hs0⟩ := touchElement_spec hwf hw c
    obtain ⟨_, h1, _⟩ := getCharacterType_spec hwf hw c
    obtain ⟨_, h2, _⟩ := getCompareCharacter_spec hwf hw c
    obtain ⟨_, h3, _⟩ := getCompareCharacterInsensetive_spec hwf hw c
    obtain ⟨t4, h4, hs4⟩ := setCharacterType_spec hwf hw c T
    obtain ⟨t5, h5, hs5⟩ := setCompareCharacter_spec hwf hw c v
    obtain ⟨t6, h6, hs6⟩ := setCompareCharacterInsensetive_spec hwf hw c v
    refine ⟨⟨t0, _, ht0, ?_⟩, by simp [h1, heff], by simp [h2, heff], by simp [h3, heff],
      ⟨t4, h4, ?_⟩, ⟨t5, h5, ?_⟩, ⟨t6, h6, ?_⟩⟩
    · rw [hs0.self, heff]
    · rw [hs4.self, heff]
    · rw [hs5.self, heff]
    · rw [hs6.self, heff]
  · intro t c v h hw
    have hwf := WF_of_reachable h
    obtain ⟨t1, h1, hs1⟩ := setCompareCharacter_spec hwf hw c v
    have hw1 := hs1.width_pos hw
    obtain ⟨t2, h2, hs2⟩ := setCharacterType_spec hs1.wf hw1 c none
    have hw2 := hs2.width_pos hw1
    obtain ⟨_, h3, _⟩ := getCompareCharacter_spec hs2.wf hw2 c
    obtain ⟨_, h4, _⟩ := getCharacterType_spec hs2.wf hw2 c
    have hcell := hs2.self
    rw [hs1.width] at hcell
    have heff : effective t2 c =
        { m_characterTypePtr := t.m_defaultCharacterType, m_compareValue := c
          m_caseInsensetiveCompareValue := c } := by
      rw [hs2.effective_self, hs1.dflt]
      simp [normalize]
    exact ⟨t1, t2, _, h1, h2, hcell, rfl, by simp [h3, heff], by simp [h4, heff]⟩

/-- Witness of C18: the table of width 2 and default tag `some 7` after
`setCompareCharacter 1 5` and `setCharacterType 1 nullptr`; its cell of code point 1
stores `(nullptr, 5, 1)`. -/
theorem null_tag_resets_witness :
    (∃ t1 co,
      touchElement
        { m_defaultCharacterType := some 7
          m_data := some [[CharacterTypeTraits.ctor,
            { m_characterTypePtr := none, m_compareValue := 5
              m_caseInsensetiveCompareValue := 1 }]]
          i_size := 1, j_size := 2 } 1 = some (t1, co) ∧
      readCell t1 co.i co.j
        = some { m_characterTypePtr := some 7, m_compareValue := 1
                 m_caseInsensetiveCompareValue := 1 }) ∧
    (getCompareCharacter
        { m_defaultCharacterType := some 7
          m_data := some [[CharacterTypeTraits.ctor,
            { m_characterTypePtr := none, m_compareValue := 5
              m_caseInsensetiveCompareValue := 1 }]]
          i_size := 1, j_size := 2 } 1).map Prod.snd = some 1 :=
  have h := null_tag_resets.1
    { m_defaultCharacterType := some 7
      m_data := some [[CharacterTypeTraits.ctor,
        { m_characterTypePtr := none, m_compareValue := 5
          m_caseInsensetiveCompareValue := 1 }]]
      i_size := 1, j_size := 2 } 1
    { m_characterTypePtr := none, m_compareValue := 5, m_caseInsensetiveCompareValue := 1 }
    (some 9) 8
    (Reachable.call (Op.setCharacterType 1 none)
      { m_defaultCharacterType := some 7
        m_data := some [[CharacterTypeTraits.ctor,
          { m_characterTypePtr := some 7, m_compareValue := 5
            m_caseInsensetiveCompareValue := 1 }]]
        i_size := 1, j_size := 2 } _
      (Reachable.call (Op.setCompareCharacter 1 5) _ _
        (Reachable.construct (some 7) 2 _ rfl) (by decide)) (by decide))
    (by decide) (by decide) rfl
  ⟨h.1, h.2.2.1⟩

/-- Overwriting one compare value of a normalised cell and normalising again keeps the
tag and the other compare value. -/
theorem normalize_update_compare {D : CharacterTypePtr} {c : Nat} {e : CharacterTypeTraits}
    (hnorm : normalize D c e = e) (v : Nat) :
    (normalize D c { e with m_compareValue := v }).m_characterTypePtr
        = e.m_characterTypePtr ∧
    (normalize D c { e with m_compareValue := v }).m_caseInsensetiveCompareValue
        = e.m_caseInsensetiveCompareValue ∧
    (normalize D c { e with m_caseInsensetiveCompareValue := v }).m_characterTypePtr
        = e.m_characterTypePtr ∧
    (normalize D c { e with m_caseInsensetiveCompareValue := v }).m_compareValue
        = e.m_compareValue := by
  rcases e with ⟨tag, cmp, ci⟩
  simp only [normalize] at hnorm ⊢
  by_cases hT : tag = none
  · subst hT
    simp at hnorm ⊢
    exact ⟨hnorm.1, hnorm.2.2, hnorm.1, hnorm.2.1⟩
  · simp [hT]

/-- C19 (compare-value writes do not disturb the other fields). For every reachable
table of width > 0, whatever its default tag, all code points `c` and `c2` (equal or
not) and every value `v`: `setCompareCharacter c v` succeeds and leaves unchanged what
`getCharacterType` and `getCompareCharacterInsensetive` return at `c2`, and
`setCompareCharacterInsensetive c v` succeeds and leaves unchanged what
`getCharacterType` and `getCompareCharacter` return at `c2`. -/
theorem compare_writes_keep_other_fields (t : CharacterTypeSetData) (h : Reachable t)
    (hw : 0 < t.j_size) (c c2 v : Nat) :
    ∃ t1 t2 tag cmp ci,
      (getCharacterType t c2).map Prod.snd = some tag ∧
      (getCompareCharacter t c2).map Prod.snd = some cmp ∧
      (getCompareCharacterInsensetive t c2).map Prod.snd = some ci ∧
      setCompareCharacter t c v = some t1 ∧
      (getCharacterType t1 c2).map Prod.snd = some tag ∧
      (getCompareCharacterInsensetive t1 c2).map Prod.snd = some ci ∧
      setCompareCharacterInsensetive t c v = some t2 ∧
      (getCharacterType t2 c2).map Prod.snd = some tag ∧
      (getCompareCharacter t2 c2).map Prod.snd = some cmp := by
  have hwf := WF_of_reachable h
  obtain ⟨_, g1, _⟩ := getCharacterType_spec hwf hw c2
  obtain ⟨_, g2, _⟩ := getCompareCharacter_spec hwf hw c2
  obtain ⟨_, g3, _⟩ := getCompareCharacterInsensetive_spec hwf hw c2
  obtain ⟨t1, h1, hs1⟩ := setCompareCharacter_spec hwf hw c v
  obtain ⟨t2, h2, hs2⟩ := setCompareCharacterInsensetive_spec hwf hw c v
  have hw1 := hs1.width_pos hw
  have hw2 := hs2.width_pos hw
  obtain ⟨_, a1, _⟩ := getCharacterType_spec hs1.wf hw1 c2
  obtain ⟨_, a3, _⟩ := getCompareCharacterInsensetive_spec hs1.wf hw1 c2
  obtain ⟨_, b1, _⟩ := getCharacterType_spec hs2.wf hw2 c2
  obtain ⟨_, b2, _⟩ := getCompareCharacter_spec hs2.wf hw2 c2
  have hnorm := normalize_effective t c
  have hupd := normalize_update_compare hnorm v
  have e1 : (effective t1 c2).m_characterTypePtr = (effective t c2).m_characterTypePtr ∧
      (effective t1 c2).m_caseInsensetiveCompareValue
        = (effective t c2).m_caseInsensetiveCompareValue := by
    by_cases hc : c2 = c
    · subst hc
      rw [hs1.effective_self]
      exact ⟨hupd.1, hupd.2.1⟩
    · rw [hs1.effective_other hwf hw hc]
      exact ⟨rfl, rfl⟩
  have e2 : (effective t2 c2).m_characterTypePtr = (effective t c2).m_characterTypePtr ∧
      (effective t2 c2).m_compareValue = (effective t c2).m_compareValue := by
    by_cases hc : c2 = c
    · subst hc
      rw [hs2.effective_self]
      exact ⟨hupd.2.2.1, hupd.2.2.2⟩
    · rw [hs2.effective_other hwf hw hc]
      exact ⟨rfl, rfl⟩
  exact ⟨t1, t2, (effective t c2).m_characterTypePtr, (effective t c2).m_compareValue,
    (effective t c2).m_caseInsensetiveCompareValue, by simp [g1], by simp [g2], by simp [g3], h1,
    by simp [a1, e1.1], by simp [a3, e1.2], h2, by simp [b1, e2.1], by simp [b2, e2.2]⟩

/-- Witness of C19: the table constructed with a null default tag and width 2, writes
at code point 3, reads at the same code point. -/
theorem compare_writes_keep_other_fields_witness :
    ∃ t1 t2 tag cmp ci,
      (getCharacterType
        { m_defaultCharacterType := none, m_data := some [], i_size := 0, j_size := 2 }
        3).map Prod.snd = some tag ∧
      (getCompareCharacter
        { m_defaultCharacterType := none, m_data := some [], i_size := 0, j_size := 2 }
        3).map Prod.snd = some cmp ∧
      (getCompareCharacterInsensetive
        { m_defaultCharacterType := none, m_data := some [], i_size := 0, j_size := 2 }
        3).map Prod.snd = some ci ∧
      setCompareCharacter
        { m_defaultCharacterType := none, m_data := some [], i_size := 0, j_size := 2 }
        3 5 = some t1 ∧
      (getCharacterType t1 3).map Prod.snd = some tag ∧
      (getCompareCharacterInsensetive t1 3).map Prod.snd = some ci ∧
      setCompareCharacterInsensetive
        { m_defaultCharacterType := none, m_data := some [], i_size := 0, j_size := 2 }
        3 5 = some t2 ∧
      (getCharacterType t2 3).map Prod.snd = some tag ∧
      (getCompareCharacter t2 3).map Prod.snd = some cmp :=
  compare_writes_keep_other_fields _ (Reachable.construct none 2 _ rfl) (by decide) 3 3 5

/-! ## Refinement of three total maps -/

/-- A call that does not write a null tag acts on the table as it acts on the maps. -/
theorem Represents.call {t : CharacterTypeSetData} {m : TotalMaps} (h : Represents t m)
    (op : Op) (hop : op.writesNullTag = false) :
    ∃ t1, op.call t = some (t1, (m.call op).2) ∧ Represents t1 (m.call op).1 := by
  obtain ⟨hwf, hw, hD, heff⟩ := h
  have hget : ∀ {t1 : CharacterTypeSetData} {c : Nat}, CellSpec t t1 c (effective t c) →
      Represents t1 m := by
    intro t1 c hs
    refine ⟨hs.wf, hs.width_pos hw, by rw [hs.dflt]; exact hD, fun k => ?_⟩
    by_cases hk : k = c
    · subst hk
      rw [hs.effective_self, normalize_effective, heff]
    · rw [hs.effective_other hwf hw hk, heff]
  have htag : ∀ c, (effective t c).m_characterTypePtr ≠ none :=
    fun c => effective_tag_ne_none hD c
  cases op with
  | getCharacterType c =>
    obtain ⟨t1, hr, hs⟩ := getCharacterType_spec hwf hw c
    exact ⟨t1, by simp [Op.call, hr, TotalMaps.call, heff], hget hs⟩
  | getCompareCharacter c =>
    obtain ⟨t1, hr, hs⟩ := getCompareCharacter_spec hwf hw c
    exact ⟨t1, by simp [Op.call, hr, TotalMaps.call, heff], hget hs⟩
  | getCompareCharacterInsensetive c =>
    obtain ⟨t1, hr, hs⟩ := getCompareCharacterInsensetive_spec hwf hw c
    exact ⟨t1, by simp [Op.call, hr, TotalMaps.call, heff], hget hs⟩
  | setCharacterType c ptr =>
    have hp : ptr ≠ none := by
      intro hn
      subst hn
      simp [Op.writesNullTag] at hop
    obtain ⟨t1, hr, hs⟩ := setCharacterType_spec hwf hw c ptr
    refine ⟨t1, by simp [Op.call, hr, TotalMaps.call], hs.wf, hs.width_pos hw,
      by rw [hs.dflt]; exact hD, fun k => ?_⟩
    by_cases hk : k = c
    · subst hk
      rw [hs.effective_self, heff]
      simp [normalize, hp, TotalMaps.call]
    · rw [hs.effective_other hwf hw hk, heff]
      simp [TotalMaps.call, hk]
  | setCompareCharacter c v =>
    obtain ⟨t1, hr, hs⟩ := setCompareCharacter_spec hwf hw c v
    refine ⟨t1, by simp [Op.call, hr, TotalMaps.call], hs.wf, hs.width_pos hw,
      by rw [hs.dflt]; exact hD, fun k => ?_⟩
    by_cases hk : k = c
    · subst hk
      have ht := htag k
      rw [hs.effective_self]
      rw [heff] at ht ⊢
      simp only at ht
      simp [normalize, ht, TotalMaps.call]
    · rw [hs.effective_other hwf hw hk, heff]
      simp [TotalMaps.call, hk]
  | setCompareCharacterInsensetive c v =>
    obtain ⟨t1, hr, hs⟩ := setCompareCharacterInsensetive_spec hwf hw c v
    refine ⟨t1, by simp [Op.call, hr, TotalMaps.call], hs.wf, hs.width_pos hw,
      by rw [hs.dflt]; exact hD, fun k => ?_⟩
    by_cases hk : k = c
    · subst hk
      have ht := htag k
      rw [hs.effective_self]
      rw [heff] at ht ⊢
      simp only at ht
      simp [normalize, ht, TotalMaps.call]
    · rw [hs.effective_other hwf hw hk, heff]
      simp [TotalMaps.call, hk]

theorem Represents.callAll {t : CharacterTypeSetData} {m : TotalMaps} (h : Represents t m)
    (ops : List Op) (hops : ∀ op ∈ ops, op.writesNullTag = false) :
    callAll t ops = some (m.callAll ops) := by
  induction ops generalizing t m with
  | nil => rfl
  | cons op ops ih =>
    obtain ⟨t1, hc, h1⟩ := h.call op (hops op (List.mem_cons_self _ _))
    have h2 := ih h1 (fun o ho => hops o (List.mem_cons_of_mem _ ho))
    simp [CharacterTypeSetData.callAll, hc, h2, TotalMaps.callAll]

/-- C17 (the table refines three total maps with defaults). For every width `w > 0`,
every non-null default tag `D` and every sequence of get and set calls in which
`setCharacterType` is never called with a null tag: the calls made on a freshly
constructed table all succeed and return, one by one, what the same calls return on
three independent maps from code points that start as `D`, `c` and `c` and in which a
set replaces the value of its own map at its code point only. -/
theorem refines_total_maps (D : CharacterTypePtr) (w : Nat) (ops : List Op) (hw : 0 < w)
    (hD : D ≠ none) (hops : ∀ op ∈ ops, op.writesNullTag = false) :
    ∃ t0, construct D w = some t0 ∧
      callAll t0 ops = some ((TotalMaps.init D).callAll ops) := by
  refine ⟨_, construct_eq D w, Represents.callAll ?_ ops hops⟩
  exact ⟨WF_construct (construct_eq D w), hw, hD, fun c => effective_construct D w c⟩

/-- Witness of C17: width 2, default tag `some 7`, writes and reads of all three
fields, two of them at the same code point. -/
theorem refines_total_maps_witness :
    ∃ t0, construct (some 7) 2 = some t0 ∧
      callAll t0 [Op.setCompareCharacter 5 8, Op.getCharacterType 5,
          Op.setCharacterType 5 (some 9), Op.setCompareCharacterInsensetive 2 4,
          Op.getCompareCharacter 5, Op.getCharacterType 5,
          Op.getCompareCharacterInsensetive 2, Op.getCompareCharacter 2]
        = some ((TotalMaps.init (some 7)).callAll
          [Op.setCompareCharacter 5 8, Op.getCharacterType 5,
            Op.setCharacterType 5 (some 9), Op.setCompareCharacterInsensetive 2 4,
            Op.getCompareCharacter 5, Op.getCharacterType 5,
            Op.getCompareCharacterInsensetive 2, Op.getCompareCharacter 2]) :=
  refines_total_maps (some 7) 2 _ (by decide) (by decide) (by decide)

end CharacterTypeSetData

/-! ## Building the message of an exception -/

namespace FileParser

theorem exception_what_shl (e : Exception) (x : Operand) :
    (e.shl x).what = e.what ++ render x := by
  cases x <;>
    simp [Exception.shl, Exception.shl_size_t, Exception.shl_int, Exception.shl_wchar_t,
      Exception.shl_wideCString, Exception.shl_wstring, Exception.what, render,
      to_wstring_size_t, to_wstring_int]

theorem exception_what_foldl (e : Exception) (xs : List Operand) :
    (xs.foldl Exception.shl e).what = e.what ++ renderAll xs := by
  induction xs generalizing e with
  | nil => simp [renderAll]
  | cons x xs ih => simp [ih, exception_what_shl, renderAll]

theorem parserException_what_foldl (e : ParserException) (xs : List Operand) :
    (xs.foldl ParserException.shl e).what = e.what ++ renderAll xs := by
  induction xs generalizing e with
  | nil => simp [renderAll]
  | cons x xs ih =>
    simp only [List.foldl_cons, ih, renderAll]
    simp [ParserException.shl, exception_what_shl]

theorem parserStructureException_what_foldl (e : ParserStructureException)
    (xs : List Operand) :
    (xs.foldl ParserStructureException.shl e).what = e.what ++ renderAll xs := by
  induction xs generalizing e with
  | nil => simp [renderAll]
  | cons x xs ih =>
    simp only [List.foldl_cons, ih, renderAll]
    simp [ParserStructureException.shl, ParserException.shl, exception_what_shl]

theorem parserSemanticException_what_foldl (e : ParserSemanticException)
    (xs : List Operand) :
    (xs.foldl ParserSemanticException.shl e).what = e.what ++ renderAll xs := by
  induction xs generalizing e with
  | nil => simp [renderAll]
  | cons x xs ih =>
    simp only [List.foldl_cons, ih, renderAll]
    simp [ParserSemanticException.shl, ParserException.shl, exception_what_shl]

theorem digitChar_toNat {d : Nat} (hd : d < 10) : (Nat.digitChar d).toNat - 48 = d := by
  interval_cases d <;> rfl

theorem digitChar_isDigit {d : Nat} (hd : d < 10) : (Nat.digitChar d).isDigit = true := by
  interval_cases d <;> rfl

/-- Reading back the digits that `Nat.toDigitsCore` puts in front of `ds`. -/
theorem foldl_toDigitsCore (f : Nat) :
    ∀ (n : Nat) (ds : List Char), n < f →
      (Nat.toDigitsCore 10 f n ds).foldl (fun a ch => 10 * a + (ch.toNat - 48)) 0
        = ds.foldl (fun a ch => 10 * a + (ch.toNat - 48)) n := by
  induction f with
  | zero => intro n ds h; omega
  | succ f ih =>
    intro n ds h
    have hd := digitChar_toNat (Nat.mod_lt n (by decide : 0 < 10))
    unfold Nat.toDigitsCore
    by_cases h0 : n / 10 = 0
    · have hn : n % 10 = n := Nat.mod_eq_of_lt (by omega)
      rw [hn] at hd
      simp only [h0, if_true, List.foldl_cons, hn, hd, Nat.mul_zero, Nat.zero_add]
    · simp only [h0, if_false]
      rw [ih (n / 10) _ (by omega)]
      simp only [List.foldl_cons, hd]
      rw [Nat.div_add_mod n 10]

theorem decimalValue_toDigits (n : Nat) : decimalValue (Nat.toDigits 10 n) = n := by
  unfold decimalValue Nat.toDigits
  rw [foldl_toDigitsCore (n + 1) n [] (by omega)]
  rfl

theorem isDigit_toDigitsCore (f : Nat) :
    ∀ (n : Nat) (ds : List Char), (∀ ch ∈ ds, ch.isDigit = true) →
      ∀ ch ∈ Nat.toDigitsCore 10 f n ds, ch.isDigit = true := by
  induction f with
  | zero =>
    intro n ds hds
    simpa [Nat.toDigitsCore] using hds
  | succ f ih =>
    intro n ds hds
    have hd := digitChar_isDigit (Nat.mod_lt n (by decide : 0 < 10))
    have hcons : ∀ ch ∈ Nat.digitChar (n % 10) :: ds, ch.isDigit = true := by
      intro ch hch
      rcases List.mem_cons.1 hch with rfl | hch
      · exact hd
      · exact hds ch hch
    unfold Nat.toDigitsCore
    by_cases h0 : n / 10 = 0
    · simpa only [h0, if_true] using hcons
    · simp only [h0, if_false]
      exact ih _ _ hcons

/-- C13 (exception message building). For an exception of any of the four classes
constructed from a wide text `t`, after the operands `xs` (each a `size_t`, an `int`, a
`wchar_t`, a wide C string or a `std::wstring`) have been streamed into it with
`operator<<` from left to right, `what()` returns `t` followed by the renderings of the
operands in order; `operator<<` of each derived class appends to the base object exactly
what `Exception::operator<<` appends; the rendering of a `size_t` consists of decimal
digits that denote the value, that of a non-negative `int` likewise, and that of a
negative `int` is a minus sign followed by the digits of its absolute value. Example:
`ParserStructureException(L"at ") << 42 << L':' << -7` has the text `at 42:-7`. -/
theorem what_after_streaming (t : List Char) (xs : List Operand) :
    (xs.foldl Exception.shl (Exception.ctor t)).what = t ++ renderAll xs ∧
    (xs.foldl ParserException.shl (ParserException.ctor t)).what = t ++ renderAll xs ∧
    (xs.foldl ParserStructureException.shl (ParserStructureException.ctor t)).what
      = t ++ renderAll xs ∧
    (xs.foldl ParserSemanticException.shl (ParserSemanticException.ctor t)).what
      = t ++ renderAll xs ∧
    (∀ (e : ParserException) (x : Operand), (e.shl x).toException = e.toException.shl x) ∧
    (∀ (e : ParserStructureException) (x : Operand),
      (e.shl x).toException = e.toException.shl x) ∧
    (∀ (e : ParserSemanticException) (x : Operand),
      (e.shl x).toException = e.toException.shl x) ∧
    (∀ n : Nat, decimalValue (render (Operand.size_t n)) = n ∧
      ∀ ch ∈ render (Operand.size_t n), ch.isDigit = true) ∧
    (∀ z : Int, 0 ≤ z → decimalValue (render (Operand.int z)) = z.natAbs ∧
      ∀ ch ∈ render (Operand.int z), ch.isDigit = true) ∧
    (∀ z : Int, z < 0 → ∃ ds, render (Operand.int z) = '-' :: ds ∧
      decimalValue ds = z.natAbs ∧ ∀ ch ∈ ds, ch.isDigit = true) ∧
    ([Operand.int 42, Operand.wchar_t ':', Operand.int (-7)].foldl
        ParserStructureException.shl
        (ParserStructureException.ctor ['a', 't', ' '])).what
      = ['a', 't', ' ', '4', '2', ':', '-', '7'] := by
  have hdig : ∀ n : Nat, ∀ ch ∈ Nat.toDigits 10 n, ch.isDigit = true := by
    intro n
    unfold Nat.toDigits
    exact isDigit_toDigitsCore _ _ _ (by simp)
  refine ⟨?_, ?_, ?_, ?_, fun _ _ => rfl, fun _ _ => rfl, fun _ _ => rfl, ?_, ?_, ?_, ?_⟩
  · rw [exception_what_foldl]
    rfl
  · rw [parserException_what_foldl]
    rfl
  · rw [parserStructureException_what_foldl]
    rfl
  · rw [parserSemanticException_what_foldl]
    rfl
  · intro n
    exact ⟨decimalValue_toDigits n, hdig n⟩
  · intro z hz
    have hnot : ¬ z < 0 := by omega
    simp only [render, hnot, if_false]
    exact ⟨decimalValue_toDigits _, hdig _⟩
  · intro z hz
    refine ⟨Nat.toDigits 10 z.natAbs, ?_, decimalValue_toDigits _, hdig _⟩
    simp only [render, hz, if_true]
  · decide

end FileParser

/-! ## Rows in the free store: simulation of the table value -/

namespace PointerModel

theorem Valid.ptrs {h : RowStore} {o : Table} (hv : Valid h o) :
    ∃ ptrs, o.m_data = some ptrs ∧ rowsOf o = ptrs ∧ ptrs.Nodup ∧
      (∀ a ∈ ptrs, a < h.length) ∧ ptrs.length = o.i_size := by
  obtain ⟨⟨ptrs, hd⟩, hn, hb, rows, hrd, hrl, _⟩ := hv
  have hrows : rowsOf o = ptrs := by simp [rowsOf, hd]
  rw [hrows] at hn hb
  refine ⟨ptrs, hd, hrows, hn, hb, ?_⟩
  simp only [value, hd, Option.map_some', Option.some.injEq] at hrd
  have hi : (value h o).i_size = o.i_size := rfl
  rw [← hi, ← hrl, ← hrd]
  simp

theorem value_m_data {h : RowStore} {o : Table} {ptrs : List Nat} (hd : o.m_data = some ptrs) :
    (value h o).m_data = some (ptrs.map fun a => (h[a]?).getD []) := by
  simp [value, hd]

theorem readCell_value {h : RowStore} {o : Table} (hb : ∀ a ∈ rowsOf o, a < h.length)
    (i j : Nat) : readCell h o i j = CharacterTypeSetData.readCell (value h o) i j := by
  cases hd : o.m_data with
  | none => simp [readCell, CharacterTypeSetData.readCell, value, hd]
  | some ptrs =>
    have hrows : rowsOf o = ptrs := by simp [rowsOf, hd]
    rw [hrows] at hb
    simp only [readCell, CharacterTypeSetData.readCell, value, hd, Option.map_some',
      List.getElem?_map]
    cases hp : ptrs[i]? with
    | none => simp
    | some a =>
      have ha : a < h.length := hb a (List.getElem?_mem hp)
      have hrow : h[a]? = some h[a] := List.getElem?_eq_getElem ha
      simp only [Option.map_some']
      rw [hrow]
      simp

theorem Step.trans {h h1 h2 : RowStore} {o o1 o2 : Table} (s1 : Step h o h1 o1)
    (s2 : Step h1 o1 h2 o2) : Step h o h2 o2 := by
  refine ⟨s2.valid, le_trans s1.grows s2.grows, ?_, ?_, ?_, ?_⟩
  · intro a ha hna
    have hna1 : a ∉ rowsOf o1 := by
      intro hmem
      rcases s1.owned a hmem with h3 | h3
      · exact hna h3
      · omega
    rw [s2.frame a (lt_of_lt_of_le ha s1.grows) hna1, s1.frame a ha hna]
  · intro a ha
    rcases s2.owned a ha with h3 | h3
    · exact s1.owned a h3
    · right
      exact le_trans s1.grows h3
  · rw [s2.dflt, s1.dflt]
  · rw [s2.width, s1.width]

theorem writeCell_sim {h : RowStore} {o : Table} {i j : Nat} {x : CharacterTypeTraits}
    (hv : Valid h o) (f : CharacterTypeTraits → CharacterTypeTraits)
    (hx : readCell h o i j = some x) :
    ∃ h1, writeCell h o i j f = some h1 ∧
      CharacterTypeSetData.writeCell (value h o) i j f = some (value h1 o) ∧
      Step h o h1 o ∧ readCell h1 o i j = some (f x) := by
  obtain ⟨ptrs, hd, hrows, hnd, hb, hlen⟩ := hv.ptrs
  have hxv : CharacterTypeSetData.readCell (value h o) i j = some x := by
    rw [← readCell_value (by rw [hrows]; exact hb)]
    exact hx
  simp only [readCell, hd] at hx
  cases hp : ptrs[i]? with
  | none => simp [hp] at hx
  | some a =>
    simp only [hp] at hx
    have ha : a < h.length := hb a (List.getElem?_mem hp)
    have hrow : h[a]? = some h[a] := List.getElem?_eq_getElem ha
    rw [hrow] at hx
    simp only at hx
    have hi : i < ptrs.length := by
      by_contra hc
      rw [List.getElem?_eq_none (by omega)] at hp
      cases hp
    have hw : writeCell h o i j f = some (h.set a ((h[a]).set j (f x))) := by
      simp [writeCell, hd, hp, hrow, hx]
    have hval : CharacterTypeSetData.writeCell (value h o) i j f
        = some (value (h.set a ((h[a]).set j (f x))) o) := by
      simp only [CharacterTypeSetData.writeCell, value, hd, Option.map_some',
        List.getElem?_map, hp, hrow, Option.getD_some, hx]
      congr 2
      simp only [Option.some.injEq]
      apply List.ext_getElem?
      intro k
      rw [List.getElem?_set, List.getElem?_map, List.getElem?_map]
      by_cases hik : i = k
      · subst hik
        simp [hp, hi, List.getElem?_set, ha]
      · simp only [hik, if_false]
        cases hk : ptrs[k]? with
        | none => rfl
        | some b =>
          have hne : a ≠ b := by
            intro hab
            subst hab
            obtain ⟨hi2, e1⟩ := List.getElem?_eq_some.1 hp
            obtain ⟨hk2, e2⟩ := List.getElem?_eq_some.1 hk
            exact hik ((hnd.getElem_inj_iff).1 (e1.trans e2.symm))
          simp [List.getElem?_set, hne]
    obtain ⟨t1, hw1, _, _, _, hs1, _, hwf1⟩ := CharacterTypeSetData.writeCell_spec f hxv
    rw [hval] at hw1
    cases hw1
    have hvalid : Valid (h.set a ((h[a]).set j (f x))) o := by
      refine ⟨⟨ptrs, hd⟩, by rw [hrows]; exact hnd, ?_, hwf1 hv.2.2.2⟩
      intro b hb1
      rw [hrows] at hb1
      simpa using hb b hb1
    refine ⟨_, hw, hval, ⟨hvalid, by simp, ?_, fun b hb1 => Or.inl hb1, rfl, rfl⟩, ?_⟩
    · intro b _ hnb
      have hne : a ≠ b := by
        intro hab
        subst hab
        exact hnb (by rw [hrows]; exact List.getElem?_mem hp)
      simp [List.getElem?_set, hne]
    · rw [readCell_value hvalid.2.2.1]
      exact hs1

theorem reallocateLoop_ptr_eq {h : RowStore} {o : Table} {ptrs : List Nat}
    (hd : o.m_data = some ptrs) (hl : ptrs.length = o.i_size) (n : Nat) :
    reallocateLoop h o n
      = some (h ++ List.replicate (n - o.i_size) (CharacterTypeSetData.newRow o.j_size),
          ptrs.take n ++ List.range' h.length (n - o.i_size)) := by
  induction n with
  | zero => simp [reallocateLoop]
  | succ n ih =>
    simp only [reallocateLoop, ih, hd]
    by_cases hlt : n < o.i_size
    · have h1 : ptrs[n]? = some ptrs[n] := List.getElem?_eq_getElem (by omega)
      have h2 : n - o.i_size = 0 := by omega
      have h3 : n + 1 - o.i_size = 0 := by omega
      rw [h1, h2, h3, List.take_succ, h1]
      simp [hlt]
    · have h2 : n + 1 - o.i_size = (n - o.i_size) + 1 := by omega
      have h4 : ptrs.take n = ptrs := List.take_of_length_le (by omega)
      have h5 : ptrs.take (n + 1) = ptrs := List.take_of_length_le (by omega)
      rw [h2, h4, h5, List.replicate_succ', List.range'_concat]
      simp [hlt]

theorem _reallocate_sim {h : RowStore} {o : Table} (hv : Valid h o) {n : Nat}
    (hn : o.i_size ≤ n) :
    ∃ h1 o1, _reallocate h o n = some (h1, o1) ∧
      CharacterTypeSetData._reallocate (value h o) n = some (value h1 o1) ∧
      Step h o h1 o1 ∧ o1.i_size = n := by
  obtain ⟨ptrs, hd, hrows, hnd, hb, hlen⟩ := hv.ptrs
  have hloop := reallocateLoop_ptr_eq (h := h) hd hlen n
  have htake : ptrs.take n = ptrs := List.take_of_length_le (by omega)
  rw [htake] at hloop
  have hre : _reallocate h o n
      = some (h ++ List.replicate (n - o.i_size) (CharacterTypeSetData.newRow o.j_size),
          { o with i_size := n
                   m_data := some (ptrs ++ List.range' h.length (n - o.i_size)) }) := by
    simp [_reallocate, hloop]
  obtain ⟨t1, hvre, _, _, _, hwf1, _, _⟩ := CharacterTypeSetData._reallocate_spec hv.2.2.2
    (show (value h o).i_size ≤ n from hn)
  have hvloop := CharacterTypeSetData.reallocateLoop_eq (t := value h o)
    (value_m_data hd) (by simpa [value] using hlen) n
  have hvtake : (ptrs.map fun a => (h[a]?).getD []).take n
      = ptrs.map fun a => (h[a]?).getD [] :=
    List.take_of_length_le (by simp; omega)
  rw [hvtake] at hvloop
  have hrowsEq :
      (ptrs ++ List.range' h.length (n - o.i_size)).map
        (fun a => ((h ++ List.replicate (n - o.i_size)
          (CharacterTypeSetData.newRow o.j_size))[a]?).getD [])
      = (ptrs.map fun a => (h[a]?).getD [])
          ++ List.replicate (n - o.i_size) (CharacterTypeSetData.newRow o.j_size) := by
    rw [List.map_append]
    congr 1
    · apply List.map_congr_left
      intro a ha
      rw [List.getElem?_append_left (hb a ha)]
    · apply List.ext_getElem?
      intro m
      rw [List.getElem?_replicate, List.getElem?_map]
      by_cases hm : m < n - o.i_size
      · rw [List.getElem?_range' _ _ hm]
        simp only [hm, if_true, Option.map_some', Option.some.injEq, Nat.one_mul]
        rw [List.getElem?_append_right (by omega), List.getElem?_replicate]
        simp [hm]
      · rw [List.getElem?_eq_none (by simp; omega)]
        simp [hm]
  have hval : CharacterTypeSetData._reallocate (value h o) n
      = some (value (h ++ List.replicate (n - o.i_size)
            (CharacterTypeSetData.newRow o.j_size))
          { o with i_size := n
                   m_data := some (ptrs ++ List.range' h.length (n - o.i_size)) }) := by
    unfold CharacterTypeSetData._reallocate
    rw [hvloop]
    simp only [value, Option.map_some', hrowsEq]
  rw [hval] at hvre
  cases hvre
  refine ⟨_, _, hre, hval, ⟨⟨⟨_, rfl⟩, ?_, ?_, hwf1⟩, by simp, ?_, ?_, rfl, rfl⟩, rfl⟩
  · simp only [rowsOf, Option.getD_some]
    refine List.Nodup.append hnd (List.nodup_range' _ _) ?_
    intro a ha ha2
    have h1 := hb a ha
    obtain ⟨k, _, hk⟩ := List.mem_range'.1 ha2
    omega
  · intro a ha
    simp only [rowsOf, Option.getD_some, List.mem_append] at ha
    simp only [List.length_append, List.length_replicate]
    rcases ha with ha | ha
    · have := hb a ha
      omega
    · obtain ⟨k, hk1, hk2⟩ := List.mem_range'.1 ha
      omega
  · intro a ha _
    exact List.getElem?_append_left ha
  · intro a ha
    simp only [rowsOf, Option.getD_some, List.mem_append] at ha
    rcases ha with ha | ha
    · left
      rw [hrows]
      exact ha
    · right
      obtain ⟨k, _, hk2⟩ := List.mem_range'.1 ha
      omega

theorem Step.bound {h h1 : RowStore} {o o1 : Table} (s : Step h o h1 o1) :
    ∀ a ∈ rowsOf o1, a < h1.length :=
  s.valid.2.2.1

/-- Three writes to one cell, as both `setDafaultCharacterTypeInPosition` and
`createDefaultCharacterTypeInPosition` make them. -/
theorem threeWrites_sim {h : RowStore} {o : Table} {i j : Nat} {x : CharacterTypeTraits}
    (hv : Valid h o) (hx : readCell h o i j = some x) (D : CharacterTypePtr) (c : Nat) :
    ∃ h1 h2 h3,
      writeCell h o i j (fun x => { x with m_characterTypePtr := D }) = some h1 ∧
      writeCell h1 o i j (fun x => { x with m_compareValue := c }) = some h2 ∧
      writeCell h2 o i j (fun x => { x with m_caseInsensetiveCompareValue := c }) = some h3 ∧
      CharacterTypeSetData.writeCell (value h o) i j
        (fun x => { x with m_characterTypePtr := D }) = some (value h1 o) ∧
      CharacterTypeSetData.writeCell (value h1 o) i j
        (fun x => { x with m_compareValue := c }) = some (value h2 o) ∧
      CharacterTypeSetData.writeCell (value h2 o) i j
        (fun x => { x with m_caseInsensetiveCompareValue := c }) = some (value h3 o) ∧
      Step h o h3 o ∧
      readCell h3 o i j = some { m_characterTypePtr := D, m_compareValue := c
                                 m_caseInsensetiveCompareValue := c } := by
  obtain ⟨h1, w1, v1, s1, r1⟩ :=
    writeCell_sim hv (fun x => { x with m_characterTypePtr := D }) hx
  obtain ⟨h2, w2, v2, s2, r2⟩ :=
    writeCell_sim s1.valid (fun x => { x with m_compareValue := c }) r1
  obtain ⟨h3, w3, v3, s3, r3⟩ :=
    writeCell_sim s2.valid (fun x => { x with m_caseInsensetiveCompareValue := c }) r2
  exact ⟨h1, h2, h3, w1, w2, w3, v1, v2, v3, (s1.trans s2).trans s3, r3⟩

theorem setDafault_sim {h : RowStore} {o : Table} {i j : Nat} {x : CharacterTypeTraits}
    (hv : Valid h o) (hx : readCell h o i j = some x) (c : Nat) :
    ∃ h1, setDafaultCharacterTypeInPosition h o i j c = some h1 ∧
      CharacterTypeSetData.setDafaultCharacterTypeInPosition (value h o) i j c
        = some (value h1 o) ∧
      Step h o h1 o ∧
      readCell h1 o i j = some { m_characterTypePtr := o.m_defaultCharacterType
                                 m_compareValue := c, m_caseInsensetiveCompareValue := c } := by
  obtain ⟨h1, h2, h3, w1, w2, w3, v1, v2, v3, st, r⟩ :=
    threeWrites_sim hv hx o.m_defaultCharacterType c
  refine ⟨h3, by simp [setDafaultCharacterTypeInPosition, w1, w2, w3], ?_, st, r⟩
  have hD : (value h o).m_defaultCharacterType = o.m_defaultCharacterType := rfl
  simp [CharacterTypeSetData.setDafaultCharacterTypeInPosition, hD, v1, v2, v3]

theorem createDefault_sim {h : RowStore} {o : Table} {i j : Nat} (hv : Valid h o)
    (hi : o.i_size ≤ i) (hj : j < o.j_size) (c : Nat) :
    ∃ h1 o1, createDefaultCharacterTypeInPosition h o i j c = some (h1, o1) ∧
      CharacterTypeSetData.createDefaultCharacterTypeInPosition (value h o) i j c
        = some (value h1 o1) ∧
      Step h o h1 o1 ∧
      readCell h1 o1 i j = some { m_characterTypePtr := o.m_defaultCharacterType
                                  m_compareValue := c, m_caseInsensetiveCompareValue := c } := by
  obtain ⟨h0, o0, hre, hvre, s0, hsize⟩ := _reallocate_sim hv (show o.i_size ≤ i + 1 by omega)
  have hcell : ∃ x, readCell h0 o0 i j = some x := by
    rw [readCell_value s0.bound]
    exact CharacterTypeSetData.readCell_isSome_of_lt s0.valid.2.2.2
      (show i < (value h0 o0).i_size by show i < o0.i_size; omega)
      (show j < (value h0 o0).j_size by show j < o0.j_size; rw [s0.width]; exact hj)
  obtain ⟨x, hx⟩ := hcell
  obtain ⟨h1, h2, h3, w1, w2, w3, v1, v2, v3, st, r⟩ :=
    threeWrites_sim s0.valid hx o0.m_defaultCharacterType c
  have hge : i ≥ o.i_size := hi
  refine ⟨h3, o0, ?_, ?_, s0.trans st, by rw [r, s0.dflt]⟩
  · simp [createDefaultCharacterTypeInPosition, hge, hre, w1, w2, w3]
  · have hge2 : i ≥ (value h o).i_size := hi
    have hD : (value h0 o0).m_defaultCharacterType = o0.m_defaultCharacterType := rfl
    simp [CharacterTypeSetData.createDefaultCharacterTypeInPosition, hge2, hvre, hD, v1, v2, v3]

theorem Step.refl {h : RowStore} {o : Table} (hv : Valid h o) : Step h o h o :=
  ⟨hv, le_refl _, fun _ _ _ => rfl, fun _ ha => Or.inl ha, rfl, rfl⟩

theorem touchElement_sim {h : RowStore} {o : Table} (hv : Valid h o) (hw : 0 < o.j_size)
    (c : Nat) :
    ∃ h2 o2 x, touchElement h o c = some (h2, o2, { i := c / o.j_size, j := c % o.j_size }) ∧
      CharacterTypeSetData.touchElement (value h o) c
        = some (value h2 o2, { i := c / o.j_size, j := c % o.j_size }) ∧
      Step h o h2 o2 ∧ readCell h2 o2 (c / o.j_size) (c % o.j_size) = some x := by
  have hw0 : o.j_size ≠ 0 := by omega
  have hvw0 : (value h o).j_size ≠ 0 := hw0
  have hjlt : c % o.j_size < o.j_size := Nat.mod_lt _ hw
  have hgi : get_i o c = some (c / o.j_size) := by simp [get_i, hw0]
  have hgj : get_j o c = some (c % o.j_size) := by simp [get_j, hw0]
  have hvj : (value h o).j_size = o.j_size := rfl
  have hvi : (value h o).i_size = o.i_size := rfl
  by_cases hi : o.i_size ≤ c / o.j_size
  · have hge : c / o.j_size ≥ o.i_size := hi
    obtain ⟨h1, o1, hc, hvc, s1, r1⟩ := createDefault_sim hv hi hjlt c
    have hvr1 := r1
    rw [readCell_value s1.bound] at hvr1
    by_cases hD : o.m_defaultCharacterType = none
    · obtain ⟨h2, hs, hvs, s2, r2⟩ := setDafault_sim s1.valid r1 c
      refine ⟨h2, o1, _, ?_, ?_, s1.trans s2, r2⟩
      · simp [touchElement, hgi, hgj, hge, hc, r1, hD, hs]
      · simp [CharacterTypeSetData.touchElement, CharacterTypeSetData.get_i,
          CharacterTypeSetData.get_j, hw0, hi, hvw0, hvj, hvi, hge, hvc, hvr1, hD, hvs]
    · refine ⟨h1, o1, _, ?_, ?_, s1, r1⟩
      · simp [touchElement, hgi, hgj, hge, hc, r1, hD]
      · simp [CharacterTypeSetData.touchElement, CharacterTypeSetData.get_i,
          CharacterTypeSetData.get_j, hw0, hi, hvw0, hvj, hvi, hge, hvc, hvr1, hD]
  · have hnge : ¬ c / o.j_size ≥ o.i_size := hi
    have hlt : c / o.j_size < o.i_size := by omega
    obtain ⟨x, hvx⟩ := CharacterTypeSetData.readCell_isSome_of_lt hv.2.2.2
      (show c / o.j_size < (value h o).i_size from hlt)
      (show c % o.j_size < (value h o).j_size from hjlt)
    have hx : readCell h o (c / o.j_size) (c % o.j_size) = some x := by
      rw [readCell_value hv.2.2.1]
      exact hvx
    by_cases hxn : x.m_characterTypePtr = none
    · obtain ⟨h2, hs, hvs, s2, r2⟩ := setDafault_sim hv hx c
      refine ⟨h2, o, _, ?_, ?_, s2, r2⟩
      · simp [touchElement, hgi, hgj, hnge, hx, hxn, hs]
      · simp [CharacterTypeSetData.touchElement, CharacterTypeSetData.get_i,
          CharacterTypeSetData.get_j, hw0, hi, hvw0, hvj, hvi, hnge, hvx, hxn, hvs]
    · refine ⟨h, o, x, ?_, ?_, Step.refl hv, hx⟩
      · simp [touchElement, hgi, hgj, hnge, hx, hxn]
      · simp [CharacterTypeSetData.touchElement, CharacterTypeSetData.get_i,
          CharacterTypeSetData.get_j, hw0, hi, hvw0, hvj, hvi, hnge, hvx, hxn]

/-- Every call on a sound object of positive width succeeds, acts on the value of the
object as the call on table values does, and has the footprint `Step`. -/
theorem run_sim {h : RowStore} {o : Table} (hv : Valid h o) (hw : 0 < o.j_size)
    (op : CharacterTypeSetData.Op) :
    ∃ h1 o1, run h o op = some (h1, o1) ∧
      CharacterTypeSetData.Op.run (value h o) op = some (value h1 o1) ∧ Step h o h1 o1 := by
  obtain ⟨h1, o1, x, ht, hvt, s1, r1⟩ := touchElement_sim hv hw op.index
  have hvr1 := r1
  rw [readCell_value s1.bound] at hvr1
  cases op with
  | getCharacterType c =>
    refine ⟨h1, o1, ?_, ?_, s1⟩
    · simp only [CharacterTypeSetData.Op.index] at ht r1
      simp [run, getCharacterType, ht, r1]
    · simp only [CharacterTypeSetData.Op.index] at hvt hvr1
      simp [CharacterTypeSetData.Op.run, CharacterTypeSetData.getCharacterType, hvt, hvr1]
  | getCompareCharacter c =>
    refine ⟨h1, o1, ?_, ?_, s1⟩
    · simp only [CharacterTypeSetData.Op.index] at ht r1
      simp [run, getCompareCharacter, ht, r1]
    · simp only [CharacterTypeSetData.Op.index] at hvt hvr1
      simp [CharacterTypeSetData.Op.run, CharacterTypeSetData.getCompareCharacter, hvt, hvr1]
  | getCompareCharacterInsensetive c =>
    refine ⟨h1, o1, ?_, ?_, s1⟩
    · simp only [CharacterTypeSetData.Op.index] at ht r1
      simp [run, getCompareCharacterInsensetive, ht, r1]
    · simp only [CharacterTypeSetData.Op.index] at hvt hvr1
      simp [CharacterTypeSetData.Op.run, CharacterTypeSetData.getCompareCharacterInsensetive,
        hvt, hvr1]
  | setCharacterType c ptr =>
    simp only [CharacterTypeSetData.Op.index] at ht r1 hvt
    obtain ⟨h2, w2, v2, s2, _⟩ :=
      writeCell_sim s1.valid (fun x => { x with m_characterTypePtr := ptr }) r1
    refine ⟨h2, o1, ?_, ?_, s1.trans s2⟩
    · simp [run, setCharacterType, ht, w2]
    · simp [CharacterTypeSetData.Op.run, CharacterTypeSetData.setCharacterType, hvt, v2]
  | setCompareCharacter c v =>
    simp only [CharacterTypeSetData.Op.index] at ht r1 hvt
    obtain ⟨h2, w2, v2, s2, _⟩ :=
      writeCell_sim s1.valid (fun x => { x with m_compareValue := v }) r1
    refine ⟨h2, o1, ?_, ?_, s1.trans s2⟩
    · simp [run, setCompareCharacter, ht, w2]
    · simp [CharacterTypeSetData.Op.run, CharacterTypeSetData.setCompareCharacter, hvt, v2]
  | setCompareCharacterInsensetive c v =>
    simp only [CharacterTypeSetData.Op.index] at ht r1 hvt
    obtain ⟨h2, w2, v2, s2, _⟩ :=
      writeCell_sim s1.valid (fun x => { x with m_caseInsensetiveCompareValue := v }) r1
    refine ⟨h2, o1, ?_, ?_, s1.trans s2⟩
    · simp [run, setCompareCharacterInsensetive, ht, w2]
    · simp [CharacterTypeSetData.Op.run, CharacterTypeSetData.setCompareCharacterInsensetive,
        hvt, v2]

/-- What a caller reads from a sound object is what it reads from the value of the
object. -/
theorem observe_sim {h : RowStore} {o : Table} (hv : Valid h o) (hw : 0 < o.j_size)
    (c : Nat) : observe h o c = CharacterTypeSetData.observe (value h o) c := by
  obtain ⟨h1, o1, x, ht, hvt, s1, r1⟩ := touchElement_sim hv hw c
  have hvr1 := r1
  rw [readCell_value s1.bound] at hvr1
  simp [observe, CharacterTypeSetData.observe, getCharacterType, getCompareCharacter,
    getCompareCharacterInsensetive, CharacterTypeSetData.getCharacterType,
    CharacterTypeSetData.getCompareCharacter,
    CharacterTypeSetData.getCompareCharacterInsensetive, ht, hvt, r1, hvr1]

/-! ## Objects that share no row -/

theorem value_frame {h h1 : RowStore} {o : Table}
    (hf : ∀ a ∈ rowsOf o, h1[a]? = h[a]?) : value h1 o = value h o := by
  cases hd : o.m_data with
  | none => simp [value, hd]
  | some ptrs =>
    have hrows : rowsOf o = ptrs := by simp [rowsOf, hd]
    rw [hrows] at hf
    simp only [value, hd, Option.map_some']
    congr 2
    apply List.map_congr_left
    intro a ha
    rw [hf a ha]

theorem Valid.frame {h h1 : RowStore} {o : Table} (hv : Valid h o)
    (hg : h.length ≤ h1.length) (hf : ∀ a ∈ rowsOf o, h1[a]? = h[a]?) : Valid h1 o := by
  refine ⟨hv.1, hv.2.1, fun a ha => lt_of_lt_of_le (hv.2.2.1 a ha) hg, ?_⟩
  rw [value_frame hf]
  exact hv.2.2.2

theorem Separate.symm {h : RowStore} {a b : Table} (hs : Separate h a b) :
    Separate h b a :=
  ⟨hs.2.1, hs.1, fun p hp hpa => hs.2.2 p hpa hp⟩

/-- A call on one of two objects that share no row leaves the other object and its value
as they are, and the two still share no row. -/
theorem Separate.step {h h1 : RowStore} {a a1 b : Table} (hs : Separate h a b)
    (st : Step h a h1 a1) : Separate h1 a1 b ∧ value h1 b = value h b := by
  have hf : ∀ p ∈ rowsOf b, h1[p]? = h[p]? := by
    intro p hp
    exact st.frame p (hs.2.1.2.2.1 p hp) (fun hpa => hs.2.2 p hpa hp)
  refine ⟨⟨st.valid, hs.2.1.frame st.grows hf, ?_⟩, value_frame hf⟩
  intro p hp hpb
  rcases st.owned p hp with h3 | h3
  · exact hs.2.2 p h3 hpb
  · have := hs.2.1.2.2.1 p hpb
    omega

theorem Separate.run {h h1 : RowStore} {a a1 b : Table} (hs : Separate h a b)
    (hw : 0 < a.j_size) {op : CharacterTypeSetData.Op} (hr : run h a op = some (h1, a1)) :
    Separate h1 a1 b := by
  obtain ⟨h2, a2, hr2, _, st⟩ := run_sim hs.1 hw op
  rw [hr] at hr2
  cases hr2
  exact (hs.step st).1

theorem runOps_separate {h : RowStore} {a b : Table} (hs : Separate h a b)
    (hw : 0 < a.j_size) (ops : List CharacterTypeSetData.Op) :
    ∃ h1 a1, runOps h a ops = some (h1, a1) ∧ Separate h1 a1 b ∧
      value h1 b = value h b ∧ a1.j_size = a.j_size := by
  induction ops generalizing h a with
  | nil => exact ⟨h, a, rfl, hs, rfl, rfl⟩
  | cons op ops ih =>
    obtain ⟨h1, a1, hr, _, st⟩ := run_sim hs.1 hw op
    obtain ⟨hs1, hv1⟩ := hs.step st
    have hw1 : 0 < a1.j_size := by rw [st.width]; exact hw
    obtain ⟨h2, a2, hr2, hs2, hv2, hj2⟩ := ih hs1 hw1
    exact ⟨h2, a2, by simp [runOps, hr, hr2], hs2, by rw [hv2, hv1], by rw [hj2, st.width]⟩

theorem construct_ptr_eq (h : RowStore) (D : CharacterTypePtr) (w : Nat) :
    construct h D w
      = some (h, { m_defaultCharacterType := D, m_data := some [], i_size := 0
                   j_size := w }) :=
  rfl

theorem Valid_construct (h : RowStore) (D : CharacterTypePtr) (w : Nat) :
    Valid h { m_defaultCharacterType := D, m_data := some [], i_size := 0, j_size := w } :=
  ⟨⟨[], rfl⟩, by simp [rowsOf], by simp [rowsOf], ⟨[], rfl, rfl, by simp⟩⟩

theorem Separate_construct (h : RowStore) (D1 D2 : CharacterTypePtr) (w1 w2 : Nat) :
    Separate h
      { m_defaultCharacterType := D1, m_data := some [], i_size := 0, j_size := w1 }
      { m_defaultCharacterType := D2, m_data := some [], i_size := 0, j_size := w2 } :=
  ⟨Valid_construct h D1 w1, Valid_construct h D2 w2, by simp [rowsOf]⟩

theorem copyLoop_ptr_eq {h : RowStore} {ptrs : List Nat} {w : Nat}
    (hb : ∀ a ∈ ptrs, a < h.length) (hr : ∀ a ∈ ptrs, ((h[a]?).getD []).length = w)
    (n : Nat) (hn : n ≤ ptrs.length) :
    copyLoop h ptrs w n
      = some (h ++ (ptrs.take n).map (fun a => (h[a]?).getD []),
          List.range' h.length n) := by
  induction n with
  | zero => simp [copyLoop]
  | succ n ih =>
    have h1 : ptrs[n]? = some ptrs[n] := List.getElem?_eq_getElem (by omega)
    have hmem : ptrs[n] ∈ ptrs := List.getElem?_mem h1
    have ha := hb _ hmem
    have hrow : h[ptrs[n]]? = some h[ptrs[n]] := List.getElem?_eq_getElem ha
    have hlen := hr _ hmem
    rw [hrow] at hlen
    simp only [Option.getD_some] at hlen
    have htake : (h[ptrs[n]]).take w = h[ptrs[n]] := List.take_of_length_le (by omega)
    simp only [copyLoop, ih (by omega)]
    rw [h1]
    simp only
    rw [List.getElem?_append_left ha, hrow]
    simp only [hlen, le_refl, if_true, htake]
    rw [List.take_succ, h1, List.range'_concat]
    simp [hrow]
    refine ⟨?_, by omega⟩
    rw [List.take_succ, List.getElem?_map, h1]
    simp [hrow]

/-- Assignment between different sound objects: the destination gets newly allocated
rows that hold the value of the source, and no old row of the store is written. -/
theorem operatorAssign_sim {h : RowStore} {this rhs : Table} (hthis : Valid h this)
    (hrhs : Valid h rhs) :
    ∃ h1 o1, operatorAssign false h this rhs = some (h1, o1) ∧
      value h1 o1 = value h rhs ∧ Valid h1 o1 ∧ h.length ≤ h1.length ∧
      (∀ a, a < h.length → h1[a]? = h[a]?) ∧ (∀ a ∈ rowsOf o1, h.length ≤ a) ∧
      o1.j_size = rhs.j_size := by
  obtain ⟨tptrs, htd, _, _, _, htl⟩ := hthis.ptrs
  obtain ⟨ptrs, hd, hrows, hnd, hb, hlen⟩ := hrhs.ptrs
  obtain ⟨rows, hrd, hrl, hrr⟩ := hrhs.2.2.2
  rw [value_m_data hd] at hrd
  cases hrd
  have hr : ∀ a ∈ ptrs, ((h[a]?).getD []).length = rhs.j_size := by
    intro a ha
    obtain ⟨k, hk⟩ := List.mem_iff_getElem?.1 ha
    exact hrr k _ (by rw [List.getElem?_map, hk]; rfl)
  have hcopy := copyLoop_ptr_eq hb hr rhs.i_size (by omega)
  have htake : ptrs.take rhs.i_size = ptrs := List.take_of_length_le (by omega)
  rw [htake] at hcopy
  have hval : value (h ++ ptrs.map (fun a => (h[a]?).getD []))
      { m_defaultCharacterType := rhs.m_defaultCharacterType
        m_data := some (List.range' h.length rhs.i_size)
        i_size := rhs.i_size, j_size := rhs.j_size } = value h rhs := by
    simp only [value, hd, Option.map_some']
    congr 2
    apply List.ext_getElem?
    intro m
    rw [List.getElem?_map]
    by_cases hm : m < rhs.i_size
    · rw [List.getElem?_range' _ _ hm]
      simp only [Option.map_some', Nat.one_mul]
      rw [List.getElem?_append_right (by omega)]
      simp only [Nat.add_sub_cancel_left]
      have hm2 : m < (ptrs.map fun a => (h[a]?).getD []).length := by simp; omega
      rw [List.getElem?_eq_getElem hm2]
      rfl
    · rw [List.getElem?_eq_none (by simp; omega), List.getElem?_eq_none (by simp; omega)]
      rfl
  refine ⟨_, _, ?_, hval, ⟨⟨_, rfl⟩, ?_, ?_, ?_⟩, by simp, ?_, ?_, rfl⟩
  · simp [operatorAssign, htd, clear, htl, hd, hcopy]
  · simp only [rowsOf, Option.getD_some]
    exact List.nodup_range' _ _
  · intro a ha
    simp only [rowsOf, Option.getD_some] at ha
    obtain ⟨k, hk1, hk2⟩ := List.mem_range'.1 ha
    simp only [List.length_append, List.length_map]
    omega
  · rw [hval]
    exact hrhs.2.2.2
  · intro a ha
    exact List.getElem?_append_left ha
  · intro a ha
    simp only [rowsOf, Option.getD_some] at ha
    obtain ⟨k, _, hk2⟩ := List.mem_range'.1 ha
    omega

/-- C12 (copy independence). Let `A` and `B` be two sound objects in one store that
share no row, `A` of positive width. The assignment `B = A` succeeds and gives `B` newly
allocated rows: no row pointer of the new `B` is a row pointer of `A`, and the three get
methods return on the new `B`, at every code point, a value, the same as on `A`. After
any sequence `opsA` of get and set calls on `A` the get methods return on `B`, at every
code point, what they returned right after the assignment, and `A` and `B` still share
no row; and after any sequence `opsB` of get and set calls on `B` the get methods return
on `A` what they returned right after the assignment. -/
theorem copy_independent (h : RowStore) (A B : Table) (hsep : Separate h A B)
    (hw : 0 < A.j_size) (opsA opsB : List CharacterTypeSetData.Op) :
    ∃ h1 B1, operatorAssign false h B A = some (h1, B1) ∧
      (∀ p ∈ rowsOf B1, p ∉ rowsOf A) ∧
      (∀ c, ∃ r, observe h1 A c = some r ∧ observe h1 B1 c = some r) ∧
      (∃ h2 A2, runOps h1 A opsA = some (h2, A2) ∧ (∀ p ∈ rowsOf B1, p ∉ rowsOf A2) ∧
        ∀ c, observe h2 B1 c = observe h1 B1 c) ∧
      (∃ h2 B2, runOps h1 B1 opsB = some (h2, B2) ∧ (∀ p ∈ rowsOf B2, p ∉ rowsOf A) ∧
        ∀ c, observe h2 A c = observe h1 A c) := by
  obtain ⟨h1, B1, hasg, hval, hvB1, hg, hf, hfresh, hj⟩ := operatorAssign_sim hsep.2.1 hsep.1
  have hfA : ∀ a ∈ rowsOf A, h1[a]? = h[a]? := fun a ha => hf a (hsep.1.2.2.1 a ha)
  have hvA : Valid h1 A := hsep.1.frame hg hfA
  have hvalA : value h1 A = value h A := value_frame hfA
  have hwB : 0 < B1.j_size := by rw [hj]; exact hw
  have hdis : ∀ p ∈ rowsOf B1, p ∉ rowsOf A := by
    intro p hp hpa
    have h3 := hfresh p hp
    have h4 := hsep.1.2.2.1 p hpa
    omega
  have hsep1 : Separate h1 A B1 := ⟨hvA, hvB1, fun p hpa hpb => hdis p hpb hpa⟩
  refine ⟨h1, B1, hasg, hdis, ?_, ?_, ?_⟩
  · intro c
    have hobs := CharacterTypeSetData.observe_eq hsep.1.2.2.2 hw c
    refine ⟨(((value h A).effective c).m_characterTypePtr,
      ((value h A).effective c).m_compareValue,
      ((value h A).effective c).m_caseInsensetiveCompareValue), ?_, ?_⟩
    · rw [observe_sim hvA hw, hvalA]
      exact hobs
    · rw [observe_sim hvB1 hwB, hval]
      exact hobs
  · obtain ⟨h2, A2, hr, hs2, hv2, _⟩ := runOps_separate hsep1 hw opsA
    refine ⟨h2, A2, hr, fun p hpb hpa => hs2.2.2 p hpa hpb, fun c => ?_⟩
    rw [observe_sim hs2.2.1 hwB, observe_sim hvB1 hwB, hv2]
  · obtain ⟨h2, B2, hr, hs2, hv2, _⟩ := runOps_separate hsep1.symm hwB opsB
    refine ⟨h2, B2, hr, hs2.2.2, fun c => ?_⟩
    rw [observe_sim hs2.2.1 hw, observe_sim hvA hw, hv2]

/-- Witness of C12: the source is the object of width 2 and default tag `some 7` after
`setCompareCharacter 3 9`, which owns the rows at addresses 0 and 1; the destination is
a freshly constructed object of width 3 and null default tag. -/
theorem copy_independent_witness :
    ∃ h1 B1,
      operatorAssign false
        [[CharacterTypeTraits.ctor, CharacterTypeTraits.ctor],
          [CharacterTypeTraits.ctor,
            { m_characterTypePtr := some 7, m_compareValue := 9
              m_caseInsensetiveCompareValue := 3 }]]
        { m_defaultCharacterType := none, m_data := some [], i_size := 0, j_size := 3 }
        { m_defaultCharacterType := some 7, m_data := some [0, 1], i_size := 2, j_size := 2 }
        = some (h1, B1) ∧
      (∀ p ∈ rowsOf B1, p ∉ rowsOf
        { m_defaultCharacterType := some 7, m_data := some [0, 1], i_size := 2
          j_size := 2 }) ∧
      (∀ c, ∃ r,
        observe h1
          { m_defaultCharacterType := some 7, m_data := some [0, 1], i_size := 2, j_size := 2 }
          c = some r ∧
        observe h1 B1 c = some r) ∧
      (∃ h2 A2,
        runOps h1
          { m_defaultCharacterType := some 7, m_data := some [0, 1], i_size := 2, j_size := 2 }
          [CharacterTypeSetData.Op.setCompareCharacter 3 11] = some (h2, A2) ∧
        (∀ p ∈ rowsOf B1, p ∉ rowsOf A2) ∧
        ∀ c, observe h2 B1 c = observe h1 B1 c) ∧
      (∃ h2 B2,
        runOps h1 B1 [CharacterTypeSetData.Op.setCharacterType 0 (some 5)] = some (h2, B2) ∧
        (∀ p ∈ rowsOf B2, p ∉ rowsOf
          { m_defaultCharacterType := some 7, m_data := some [0, 1], i_size := 2
            j_size := 2 }) ∧
        ∀ c, observe h2
            { m_defaultCharacterType := some 7, m_data := some [0, 1], i_size := 2
              j_size := 2 } c
          = observe h1
            { m_defaultCharacterType := some 7, m_data := some [0, 1], i_size := 2
              j_size := 2 } c) :=
  copy_independent
    [[CharacterTypeTraits.ctor, CharacterTypeTraits.ctor],
      [CharacterTypeTraits.ctor,
        { m_characterTypePtr := some 7, m_compareValue := 9
          m_caseInsensetiveCompareValue := 3 }]]
    { m_defaultCharacterType := some 7, m_data := some [0, 1], i_size := 2, j_size := 2 }
    { m_defaultCharacterType := none, m_data := some [], i_size := 0, j_size := 3 }
    (Separate.run (Separate_construct [] (some 7) none 2 3) (by decide)
      (show run [] { m_defaultCharacterType := some 7, m_data := some [], i_size := 0
                     j_size := 2 }
          (CharacterTypeSetData.Op.setCompareCharacter 3 9) = _ by decide))
    (by decide) _ _

end PointerModel
